import Mathlib

/-!
# Verification of the chasm dungeon-layout generator (src/map.rs)

Shallow embedding of the level-generation pipeline of the repository:
room placement (generate_rooms), room carving (Room::carve and its shape
variants), corridor weaving (connect_rooms and the four routing
strategies), secret rooms, extra corridors, biome stamping, spawn
location and stair placement (add_stairs).

The source's pseudo-random draws are modelled by an explicit stream of
raw naturals (Rng): gen_range lo hi consumes one draw d and yields
lo + d % (hi - lo), so every value of the half-open range [lo, hi) is
realisable and every stream yields an in-range value.  An exhausted
stream keeps yielding 0.  The source's two unbounded retry loops
(redrawing a distinct room index) are modelled by structural recursion
on the stream: they return none exactly when the real loop would spin
forever on that stream.  find_spawn_position draws from a separate
ambient stream, mirroring the source's fresh rand::thread_rng() there.

Grids are structures wrapping total functions Nat -> Nat -> TileType,
read as getTile t y x mirroring the source's tiles[y][x]; writes go
through setTile.
-/

namespace Chasm

def MAP_WIDTH : Nat := 45
def MAP_HEIGHT : Nat := 25

inductive TileType where
  | Floor
  | Wall
  | Door
  | SecretDoor
  | StairsDown
  | StairsUp
deriving DecidableEq, Repr

inductive RoomType where
  | Rectangular
  | Circular
  | CrossShaped
  | LShaped
  | Pillared
  | SmallChamber
  | LargeHall
deriving DecidableEq, Repr

inductive RoomSize where
  | Small
  | Medium
  | Large
deriving DecidableEq, Repr

structure Room where
  x : Nat
  y : Nat
  width : Nat
  height : Nat
  room_type : RoomType
deriving DecidableEq, Repr

inductive BiomeType where
  | Caves
  | Groves
  | Labyrinth
  | Catacombs
deriving DecidableEq, Repr

/-- Random source: a stream of raw draws; exhausted streams yield 0. -/
abbrev Rng := List Nat

def nextRaw : Rng → Nat × Rng
  | [] => (0, [])
  | d :: s => (d, s)

/-- rng.gen_range(lo..hi): one draw mapped into the half-open range. -/
def gen_range (lo hi : Nat) (s : Rng) : Nat × Rng :=
  (lo + (nextRaw s).1 % (hi - lo), (nextRaw s).2)

/-- rng.gen_range(lo..=hi): inclusive range. -/
def gen_range_incl (lo hi : Nat) (s : Rng) : Nat × Rng :=
  (lo + (nextRaw s).1 % (hi + 1 - lo), (nextRaw s).2)

/-- rng.gen_range(lo..=hi) on signed integers (used for jitter offsets). -/
def gen_range_int (lo hi : Int) (s : Rng) : Int × Rng :=
  (lo + ((nextRaw s).1 : Int) % (hi + 1 - lo), (nextRaw s).2)

/-- rng.gen_bool(num/den): one draw, true iff the draw lands in the
    first num of den equal buckets.  Both outcomes are realisable. -/
def gen_bool (num den : Nat) (s : Rng) : Bool × Rng :=
  ((nextRaw s).1 % den < num, (nextRaw s).2)

/-- The tile grid, read as getTile t y x (the source's tiles[y][x]).
    Wrapped in a structure so grid values are first-order data. -/
structure Grid where
  f : Nat → Nat → TileType

/-- The biome grid, read as getBiome b y x. -/
structure BGrid where
  f : Nat → Nat → BiomeType

def getTile (t : Grid) (y x : Nat) : TileType := t.f y x

def setTile (t : Grid) (y x : Nat) (v : TileType) : Grid :=
  ⟨fun y' x' => if y' = y ∧ x' = x then v else t.f y' x'⟩

def getBiome (b : BGrid) (y x : Nat) : BiomeType := b.f y x

def setBiome (b : BGrid) (y x : Nat) (v : BiomeType) : BGrid :=
  ⟨fun y' x' => if y' = y ∧ x' = x then v else b.f y' x'⟩

/-- The source's for i in a..b loop over an accumulator. -/
def forRange (a b : Nat) (f : α → Nat → α) (init : α) : α :=
  (List.range' a (b - a)).foldl f init

namespace Room

def size (r : Room) : RoomSize :=
  let area := r.width * r.height
  if area < 36 then RoomSize.Small
  else if area < 81 then RoomSize.Medium
  else RoomSize.Large

def center (r : Room) : Nat × Nat :=
  (r.x + r.width / 2, r.y + r.height / 2)

/-- Room::overlaps: bounding boxes with a 1-tile buffer intersect. -/
def overlaps (r other : Room) : Prop :=
  let self_x2 := r.x + r.width + 1
  let self_y2 := r.y + r.height + 1
  let other_x2 := other.x + other.width + 1
  let other_y2 := other.y + other.height + 1
  ¬(self_x2 < other.x ∨ r.x > other_x2 ∨ self_y2 < other.y ∨ r.y > other_y2)

instance (r other : Room) : Decidable (overlaps r other) := by
  unfold overlaps; infer_instance

def carve_rectangular (r : Room) (t : Grid) : Grid :=
  forRange r.y (r.y + r.height) (fun t y =>
    forRange r.x (r.x + r.width) (fun t x =>
      if 0 < y ∧ y < MAP_HEIGHT - 1 ∧ 0 < x ∧ x < MAP_WIDTH - 1 then
        setTile t y x TileType.Floor
      else t) t) t

/-- The source's f32 inscribed-ellipse test, in exact integer form:
    ((x-cx)/(w/2))^2 + ((y-cy)/(h/2))^2 <= 1 cleared of denominators. -/
def inEllipse (r : Room) (x y : Nat) : Bool :=
  let cx : Int := (r.x : Int) + (r.width : Int) / 2
  let cy : Int := (r.y : Int) + (r.height : Int) / 2
  let dx : Int := (x : Int) - cx
  let dy : Int := (y : Int) - cy
  decide ((2*dx*(r.height : Int))^2 + (2*dy*(r.width : Int))^2 ≤ ((r.width : Int)*(r.height : Int))^2)

def carve_circular (r : Room) (t : Grid) : Grid :=
  forRange r.y (r.y + r.height) (fun t y =>
    forRange r.x (r.x + r.width) (fun t x =>
      if 0 < y ∧ y < MAP_HEIGHT - 1 ∧ 0 < x ∧ x < MAP_WIDTH - 1 then
        if inEllipse r x y then setTile t y x TileType.Floor else t
      else t) t) t

def carve_cross_shaped (r : Room) (t : Grid) : Grid :=
  let third_width := r.width / 3
  let third_height := r.height / 3
  let t := forRange (r.y + third_height) (r.y + 2 * third_height) (fun t y =>
    forRange r.x (r.x + r.width) (fun t x =>
      if 0 < y ∧ y < MAP_HEIGHT - 1 ∧ 0 < x ∧ x < MAP_WIDTH - 1 then
        setTile t y x TileType.Floor
      else t) t) t
  forRange r.y (r.y + r.height) (fun t y =>
    forRange (r.x + third_width) (r.x + 2 * third_width) (fun t x =>
      if 0 < y ∧ y < MAP_HEIGHT - 1 ∧ 0 < x ∧ x < MAP_WIDTH - 1 then
        setTile t y x TileType.Floor
      else t) t) t

def carve_l_shaped (r : Room) (t : Grid) : Grid :=
  let half_width := r.width / 2
  let half_height := r.height / 2
  let t := forRange r.y (r.y + half_height) (fun t y =>
    forRange r.x (r.x + r.width) (fun t x =>
      if 0 < y ∧ y < MAP_HEIGHT - 1 ∧ 0 < x ∧ x < MAP_WIDTH - 1 then
        setTile t y x TileType.Floor
      else t) t) t
  forRange (r.y + half_height) (r.y + r.height) (fun t y =>
    forRange r.x (r.x + half_width) (fun t x =>
      if 0 < y ∧ y < MAP_HEIGHT - 1 ∧ 0 < x ∧ x < MAP_WIDTH - 1 then
        setTile t y x TileType.Floor
      else t) t) t

def carve_pillared (r : Room) (t : Grid) (s : Rng) : Grid × Rng :=
  let t := carve_rectangular r t
  if r.width < 7 ∨ r.height < 7 then (t, s)
  else
    let np := gen_range_incl 1 4 s
    forRange 0 np.1 (fun ts _ =>
      let px := gen_range (r.x + 2) (r.x + r.width - 2) ts.2
      let py := gen_range (r.y + 2) (r.y + r.height - 2) px.2
      (forRange py.1 (py.1 + 2) (fun t pyi =>
        forRange px.1 (px.1 + 2) (fun t pxi =>
          if pyi < MAP_HEIGHT ∧ pxi < MAP_WIDTH then setTile t pyi pxi TileType.Wall
          else t) t) ts.1, py.2)) (t, np.2)

def carve_small_chamber (r : Room) (t : Grid) : Grid :=
  let t := carve_rectangular r t
  if 4 ≤ r.width ∧ 4 ≤ r.height then
    let corner_x := r.x + r.width - 1
    let corner_y := r.y
    if corner_x < MAP_WIDTH ∧ corner_y < MAP_HEIGHT then
      setTile t corner_y corner_x TileType.Wall
    else t
  else t

def add_central_feature (r : Room) (t : Grid) (s : Rng) : Grid × Rng :=
  let center_x := r.x + r.width / 2
  let center_y := r.y + r.height / 2
  let fs := gen_range_incl 1 3 s
  (forRange (center_y - fs.1 / 2) (center_y + fs.1 / 2 + 1) (fun t y =>
    forRange (center_x - fs.1 / 2) (center_x + fs.1 / 2 + 1) (fun t x =>
      if 0 < x ∧ x < MAP_WIDTH - 1 ∧ 0 < y ∧ y < MAP_HEIGHT - 1 then
        setTile t y x TileType.Wall
      else t) t) t, fs.2)

def add_columns (r : Room) (t : Grid) (s : Rng) : Grid × Rng :=
  let columns_per_row := max (r.width / 4) 2
  let columns_per_col := max (r.height / 4) 2
  let x_spacing := r.width / columns_per_row
  let y_spacing := r.height / columns_per_col
  forRange 1 columns_per_row (fun ts col_idx =>
    forRange 1 columns_per_col (fun ts row_idx =>
      let column_x : Int := (r.x : Int) + (col_idx : Int) * (x_spacing : Int)
      let column_y : Int := (r.y : Int) + (row_idx : Int) * (y_spacing : Int)
      let ox := gen_range_int (-1) 1 ts.2
      let oy := gen_range_int (-1) 1 ox.2
      let cx := column_x + ox.1
      let cy := column_y + oy.1
      if 0 < cx ∧ cx < (MAP_WIDTH : Int) - 1 ∧
         0 < cy ∧ cy < (MAP_HEIGHT : Int) - 1 then
        (setTile ts.1 cy.toNat cx.toNat TileType.Wall, oy.2)
      else (ts.1, oy.2)) ts) (t, s)

def add_divider (r : Room) (t : Grid) (s : Rng) : Grid × Rng :=
  let ih : Bool × Rng :=
    if r.width > r.height then (true, s)
    else if r.width = r.height then gen_bool 1 2 s
    else (false, s)
  if ih.1 then
    (forRange (r.x + 1) (r.x + r.width - 1) (fun t x =>
      if x < r.x + r.width / 3 ∨ x > r.x + 2 * r.width / 3 then
        if r.y + r.height / 2 < MAP_HEIGHT then
          setTile t (r.y + r.height / 2) x TileType.Wall
        else t
      else t) t, ih.2)
  else
    (forRange (r.y + 1) (r.y + r.height - 1) (fun t y =>
      if y < r.y + r.height / 3 ∨ y > r.y + 2 * r.height / 3 then
        if r.x + r.width / 2 < MAP_WIDTH then
          setTile t y (r.x + r.width / 2) TileType.Wall
        else t
      else t) t, ih.2)

def carve_large_hall (r : Room) (t : Grid) (s : Rng) : Grid × Rng :=
  let t := carve_rectangular r t
  if r.width < 8 ∨ r.height < 8 then (t, s)
  else
    let k := gen_range 0 4 s
    if k.1 = 0 then add_central_feature r t k.2
    else if k.1 = 1 then add_columns r t k.2
    else if k.1 = 2 then add_divider r t k.2
    else (t, k.2)

/-- Room::carve — dispatch on the shape variant. -/
def carve (r : Room) (t : Grid) (s : Rng) : Grid × Rng :=
  match r.room_type with
  | RoomType.Rectangular => (carve_rectangular r t, s)
  | RoomType.Circular => (carve_circular r t, s)
  | RoomType.CrossShaped => (carve_cross_shaped r t, s)
  | RoomType.LShaped => (carve_l_shaped r t, s)
  | RoomType.Pillared => carve_pillared r t s
  | RoomType.SmallChamber => (carve_small_chamber r t, s)
  | RoomType.LargeHall => carve_large_hall r t s

end Room

def create_horizontal_corridor (t : Grid) (x1 x2 y : Nat) : Grid :=
  forRange (min x1 x2) (max x1 x2 + 1) (fun t x =>
    if 0 < x ∧ x < MAP_WIDTH - 1 ∧ 0 < y ∧ y < MAP_HEIGHT - 1 then
      setTile t y x TileType.Floor
    else t) t

def create_vertical_corridor (t : Grid) (y1 y2 x : Nat) : Grid :=
  forRange (min y1 y2) (max y1 y2 + 1) (fun t y =>
    if 0 < x ∧ x < MAP_WIDTH - 1 ∧ 0 < y ∧ y < MAP_HEIGHT - 1 then
      setTile t y x TileType.Floor
    else t) t

/-- Simple L-shaped corridor: horizontal run, then vertical run. -/
def create_corridor (t : Grid) (start_x start_y end_x end_y : Nat) : Grid :=
  let t := create_horizontal_corridor t start_x end_x start_y
  create_vertical_corridor t start_y end_y end_x

def create_z_corridor (t : Grid) (start_x start_y end_x end_y : Nat) (s : Rng) :
    Grid × Rng :=
  let mid_x0 := if start_x < end_x then start_x + (end_x - start_x) / 2
                else end_x + (start_x - end_x) / 2
  let mr : Nat × Rng :=
    if 5 < mid_x0 ∧ mid_x0 < MAP_WIDTH - 5 then
      (((mid_x0 : Int) + (gen_range_int (-3) 3 s).1).toNat, (gen_range_int (-3) 3 s).2)
    else (mid_x0, s)
  (create_horizontal_corridor
    (create_vertical_corridor
      (create_horizontal_corridor t start_x mr.1 start_y) start_y end_y mr.1)
    mr.1 end_x end_y, mr.2)

/-- One winding/branching segment step: horizontal move halfway towards
    the target with jitter.  jit is the jitter magnitude (2 or 3). -/
def segTargetX (cx ex jit : Nat) (s : Rng) : Nat × Rng :=
  let target_x := if cx < ex then cx + (ex - cx) / 2 else cx - (cx - ex) / 2
  if 5 < target_x ∧ target_x < MAP_WIDTH - 5 then
    (((target_x : Int) + (gen_range_int (-(jit : Int)) (jit : Int) s).1).toNat,
      (gen_range_int (-(jit : Int)) (jit : Int) s).2)
  else (target_x, s)

def segTargetY (cy ey jit : Nat) (s : Rng) : Nat × Rng :=
  let target_y := if cy < ey then cy + (ey - cy) / 2 else cy - (cy - ey) / 2
  if 5 < target_y ∧ target_y < MAP_HEIGHT - 5 then
    (((target_y : Int) + (gen_range_int (-(jit : Int)) (jit : Int) s).1).toNat,
      (gen_range_int (-(jit : Int)) (jit : Int) s).2)
  else (target_y, s)

/-- One winding/branching loop segment: coin-flip horizontal or
    vertical, move halfway towards the target with jitter, carve. -/
def segStep (end_x end_y jit : Nat) (cxy : Nat × Nat) (t : Grid) (s : Rng) :
    (Nat × Nat) × Grid × Rng :=
  let b := gen_bool 1 2 s
  if b.1 then
    let tx := segTargetX cxy.1 end_x jit b.2
    ((tx.1, cxy.2), create_horizontal_corridor t cxy.1 tx.1 cxy.2, tx.2)
  else
    let ty := segTargetY cxy.2 end_y jit b.2
    ((cxy.1, ty.1), create_vertical_corridor t cxy.2 ty.1 cxy.1, ty.2)

def create_winding_corridor (t : Grid) (start_x start_y end_x end_y : Nat) (s : Rng) :
    Grid × Rng :=
  let distance := ((start_x : Int) - end_x).natAbs + ((start_y : Int) - end_y).natAbs
  let num_segments := min (max (distance / 5) 2) 5
  let st := forRange 0 num_segments
    (fun st _ => segStep end_x end_y 2 st.1 st.2.1 st.2.2)
    (((start_x, start_y) : Nat × Nat), t, s)
  (create_vertical_corridor
    (create_horizontal_corridor st.2.1 st.1.1 end_x st.1.2) st.1.2 end_y end_x, st.2.2)

/-- The direction match used by extra corridors, branches and alcoves. -/
def dirOf (d : Nat) : Int × Int :=
  if d = 0 then (1, 0) else if d = 1 then (-1, 0) else if d = 2 then (0, 1) else (0, -1)

/-- A straight carving walk that stops at the border (loop with break). -/
def carveWalk (dx dy : Int) : Grid → Int → Int → Nat → Grid
  | t, _, _, 0 => t
  | t, x, y, n + 1 =>
    let x := x + dx
    let y := y + dy
    if x ≤ 0 ∨ (MAP_WIDTH : Int) - 1 ≤ x ∨ y ≤ 0 ∨ (MAP_HEIGHT : Int) - 1 ≤ y then t
    else carveWalk dx dy (setTile t y.toNat x.toNat TileType.Floor) x y n

def add_corridor_pillar (t : Grid) (x y : Nat) : Grid :=
  if x ≤ 1 ∨ MAP_WIDTH - 2 ≤ x ∨ y ≤ 1 ∨ MAP_HEIGHT - 2 ≤ y then t
  else
    if getTile t (y-1) (x-1) = TileType.Floor ∧ getTile t (y-1) (x+1) = TileType.Floor ∧
       getTile t (y+1) (x-1) = TileType.Floor ∧ getTile t (y+1) (x+1) = TileType.Floor then
      setTile t y x TileType.Wall
    else t

def alcoveGo (dir : Int × Int) (x y : Nat) : Grid → Nat → Nat → Grid
  | t, _, 0 => t
  | t, i, fuel + 1 =>
    let nx : Int := (x : Int) + dir.1 * (i : Int)
    let ny : Int := (y : Int) + dir.2 * (i : Int)
    if nx ≤ 0 ∨ (MAP_WIDTH : Int) - 1 ≤ nx ∨ ny ≤ 0 ∨ (MAP_HEIGHT : Int) - 1 ≤ ny then t
    else
      let t := setTile t ny.toNat nx.toNat TileType.Floor
      let t :=
        if 1 < i then
          let side : Int × Int := (dir.2, dir.1)
          ([-1, 1] : List Int).foldl (fun t j =>
            let sx := nx + side.1 * j
            let sy := ny + side.2 * j
            if sx ≤ 0 ∨ (MAP_WIDTH : Int) - 1 ≤ sx ∨ sy ≤ 0 ∨ (MAP_HEIGHT : Int) - 1 ≤ sy then t
            else setTile t sy.toNat sx.toNat TileType.Floor) t
        else t
      alcoveGo dir x y t (i + 1) fuel

def add_corridor_alcove (t : Grid) (x y : Nat) (s : Rng) : Grid × Rng :=
  let d := gen_range 0 4 s
  let asz := gen_range_incl 1 3 d.2
  (alcoveGo (dirOf d.1) x y t 1 asz.1, asz.2)

def add_corridor_widening (t : Grid) (x y : Nat) (s : Rng) : Grid × Rng :=
  ([-1, 0, 1] : List Int).foldl (fun ts dy =>
    ([-1, 0, 1] : List Int).foldl (fun ts dx =>
      if dx = 0 ∧ dy = 0 then ts
      else
        let nx := (x : Int) + dx
        let ny := (y : Int) + dy
        if nx ≤ 0 ∨ (MAP_WIDTH : Int) - 1 ≤ nx ∨ ny ≤ 0 ∨ (MAP_HEIGHT : Int) - 1 ≤ ny then
          ts
        else
          let b := gen_bool 7 10 ts.2
          if b.1 then (setTile ts.1 ny.toNat nx.toNat TileType.Floor, b.2)
          else (ts.1, b.2)) ts)
    (t, s)

def add_corridor_feature (t : Grid) (x y : Nat) (s : Rng) : Grid × Rng :=
  let k := gen_range 0 3 s
  if k.1 = 0 then add_corridor_alcove t x y k.2
  else if k.1 = 1 then (add_corridor_pillar t x y, k.2)
  else add_corridor_widening t x y k.2

/-- One loop iteration of the branching corridor: a segment, the point
    recorded for later branches, then a 20% corridor feature. -/
def branchSegStep (end_x end_y : Nat)
    (st : (Nat × Nat) × List (Nat × Nat) × Grid × Rng) (_i : Nat) :
    (Nat × Nat) × List (Nat × Nat) × Grid × Rng :=
  let seg := segStep end_x end_y 3 st.1 st.2.2.1 st.2.2.2
  let fb := gen_bool 1 5 seg.2.2
  if fb.1 then
    let ft := add_corridor_feature seg.2.1 seg.1.1 seg.1.2 fb.2
    (seg.1, st.2.1 ++ [seg.1], ft.1, ft.2)
  else (seg.1, st.2.1 ++ [seg.1], seg.2.1, fb.2)

/-- One branch off the main corridor: a random recorded point, a random
    direction and length, carved as a straight walk. -/
def branchCarveStep (pts : List (Nat × Nat)) (ts : Grid × Rng) (_i : Nat) : Grid × Rng :=
  let bi := gen_range 1 (pts.length - 1) ts.2
  let bp := pts.getD bi.1 (0, 0)
  let d := gen_range 0 4 bi.2
  let bl := gen_range 3 8 d.2
  (carveWalk (dirOf d.1).1 (dirOf d.1).2 ts.1 (bp.1 : Int) (bp.2 : Int) bl.1, bl.2)

def create_branching_corridor (t : Grid) (start_x start_y end_x end_y : Nat) (s : Rng) :
    Grid × Rng :=
  let distance := ((start_x : Int) - end_x).natAbs + ((start_y : Int) - end_y).natAbs
  let num_segments := min (max (distance / 4) 3) 6
  let corridor_points : List (Nat × Nat) := [(start_x, start_y)]
  let st := forRange 0 num_segments (branchSegStep end_x end_y)
    (((start_x, start_y) : Nat × Nat), corridor_points, t, s)
  let t2 := create_vertical_corridor
    (create_horizontal_corridor st.2.2.1 st.1.1 end_x st.1.2) st.1.2 end_y end_x
  let nb := gen_range_incl 1 3 st.2.2.2
  if st.2.1.length < 2 then (t2, nb.2)
  else forRange 0 nb.1 (branchCarveStep st.2.1) (t2, nb.2)

def door_dir_ok (t : Grid) (x y : Nat) (d : Int × Int) : Option (Nat × Nat) :=
  let nx := (x : Int) + d.1
  let ny := (y : Int) + d.2
  if 0 < nx ∧ nx < (MAP_WIDTH : Int) - 1 ∧ 0 < ny ∧ ny < (MAP_HEIGHT : Int) - 1 then
    if getTile t ny.toNat nx.toNat = TileType.Wall then
      let ox := nx + d.1
      let oy := ny + d.2
      if 0 < ox ∧ ox < (MAP_WIDTH : Int) - 1 ∧ 0 < oy ∧ oy < (MAP_HEIGHT : Int) - 1 ∧
         getTile t oy.toNat ox.toNat = TileType.Floor then
        some (nx.toNat, ny.toNat)
      else none
    else none
  else none

def find_door_position (t : Grid) (x y : Nat) : Option (Nat × Nat) :=
  ([((0 : Int), (1 : Int)), (1, 0), (0, -1), (-1, 0)]).findSome? (door_dir_ok t x y)

def has_adjacent_floor (t : Grid) (x y : Nat) : Bool :=
  ([((0 : Int), (1 : Int)), (1, 0), (0, -1), (-1, 0)]).any (fun d =>
    let nx := (x : Int) + d.1
    let ny := (y : Int) + d.2
    decide (0 ≤ nx ∧ nx < (MAP_WIDTH : Int) ∧ 0 ≤ ny ∧ ny < (MAP_HEIGHT : Int)) &&
    decide (getTile t ny.toNat nx.toNat = TileType.Floor))

/-- One secret-room placement: up to 50 sampling attempts (loop with break). -/
def secretAttempt : Grid → Rng → Nat → Grid × Rng
  | t, s, 0 => (t, s)
  | t, s, fuel + 1 =>
    let xr := gen_range 3 (MAP_WIDTH - 6) s
    let yr := gen_range 3 (MAP_HEIGHT - 6) xr.2
    if getTile t yr.1 xr.1 = TileType.Wall ∧ has_adjacent_floor t xr.1 yr.1 = true then
      let sw := gen_range 3 6 yr.2
      let sh := gen_range 3 6 sw.2
      let can_place := (List.range' yr.1 sh.1).all (fun ry =>
        (List.range' xr.1 sw.1).all (fun rx =>
          decide (rx < MAP_WIDTH) && decide (ry < MAP_HEIGHT) &&
          !(decide (getTile t ry rx = TileType.Floor))))
      if can_place then
        let t2 := setTile (forRange yr.1 (yr.1 + sh.1) (fun t ry =>
          forRange xr.1 (xr.1 + sw.1) (fun t rx =>
            if rx < MAP_WIDTH ∧ ry < MAP_HEIGHT then setTile t ry rx TileType.Floor
            else t) t) t) yr.1 xr.1 TileType.SecretDoor
        let feat := gen_bool 1 2 sh.2
        if feat.1 then
          if xr.1 + sw.1 / 2 < MAP_WIDTH ∧ yr.1 + sh.1 / 2 < MAP_HEIGHT then
            (setTile t2 (yr.1 + sh.1 / 2) (xr.1 + sw.1 / 2) TileType.Wall, feat.2)
          else (t2, feat.2)
        else (t2, feat.2)
      else secretAttempt t sh.2 fuel
    else secretAttempt t yr.2 fuel

def add_secret_rooms (t : Grid) (_rooms : List Room) (s : Rng) : Grid × Rng :=
  let num := gen_range_incl 1 3 s
  forRange 0 num.1 (fun ts _ => secretAttempt ts.1 ts.2 50) (t, num.2)

/-- Interior Floor cells having at least one cardinal Wall neighbour,
    collected row-major (extra-corridor start candidates). -/
def floorTilesNearWall (t : Grid) : List (Nat × Nat) :=
  forRange 1 (MAP_HEIGHT - 1) (fun acc y =>
    forRange 1 (MAP_WIDTH - 1) (fun acc x =>
      if getTile t y x = TileType.Floor ∧
         (getTile t (y-1) x = TileType.Wall ∨ getTile t (y+1) x = TileType.Wall ∨
          getTile t y (x-1) = TileType.Wall ∨ getTile t y (x+1) = TileType.Wall) then
        acc ++ [(x, y)]
      else acc) acc) []

/-- The extra-corridor extrusion walk: carve, occasionally branch. -/
def extraWalk : Grid → Int → Int → Int × Int → Rng → Nat → Grid × Rng
  | t, _, _, _, s, 0 => (t, s)
  | t, x, y, dir, s, n + 1 =>
    let x := x + dir.1
    let y := y + dir.2
    if x ≤ 0 ∨ (MAP_WIDTH : Int) - 1 ≤ x ∨ y ≤ 0 ∨ (MAP_HEIGHT : Int) - 1 ≤ y then (t, s)
    else
      let t2 := setTile t y.toNat x.toNat TileType.Floor
      let br := gen_bool 1 5 s
      if br.1 then
        let bd := gen_range 0 2 br.2
        let bdir : Int × Int :=
          if bd.1 = 0 then (dir.2, dir.1) else (-dir.2, -dir.1)
        let bl := gen_range 3 8 bd.2
        extraWalk (carveWalk bdir.1 bdir.2 t2 x y bl.1) x y dir bl.2 n
      else extraWalk t2 x y dir br.2 n

def add_extra_corridors (t : Grid) (_rooms : List Room) (s : Rng) : Grid × Rng :=
  let num := gen_range_incl 2 4 s
  forRange 0 num.1 (fun ts _ =>
    let floor_tiles := floorTilesNearWall ts.1
    if floor_tiles.length = 0 then ts
    else
      let si := gen_range 0 floor_tiles.length ts.2
      let sp := floor_tiles.getD si.1 (0, 0)
      let ln := gen_range 5 15 si.2
      let d := gen_range 0 4 ln.2
      extraWalk ts.1 (sp.1 : Int) (sp.2 : Int) (dirOf d.1) d.2 ln.1) (t, num.2)

/-- The unbounded redraw-until-different loop, structurally recursive on
    the stream: none exactly when the source loop never terminates. -/
def drawDifferent (f len : Nat) : Rng → Option (Nat × Rng)
  | [] => if 0 % len ≠ f then some (0 % len, []) else none
  | d :: s => if d % len ≠ f then some (d % len, s) else drawDifferent f len s

def extraConnLoop (len : Nat) : List (Nat × Nat) → Rng → Nat →
    Option (List (Nat × Nat) × Rng)
  | conns, s, 0 => some (conns, s)
  | conns, s, n + 1 =>
    let fr := gen_range 0 len s
    match drawDifferent fr.1 len fr.2 with
    | none => none
    | some tr =>
      extraConnLoop len
        (if ¬ conns.contains (fr.1, tr.1) ∧ ¬ conns.contains (tr.1, fr.1) then
          conns ++ [(fr.1, tr.1)]
        else conns) tr.2 n

def defaultRoom : Room := ⟨0, 0, 0, 0, RoomType.Rectangular⟩

/-- Third routing choice: a coin flip between the Z corridor and the
    simple L corridor. -/
def routeCorridor3 (t : Grid) (start_x start_y end_x end_y : Nat) (s : Rng) :
    Grid × Rng :=
  let uz := gen_bool 1 2 s
  if uz.1 then create_z_corridor t start_x start_y end_x end_y uz.2
  else (create_corridor t start_x start_y end_x end_y, uz.2)

/-- Second routing choice: winding for medium distances or with 30%
    probability, else the third choice. -/
def routeCorridor2 (distance : Nat) (t : Grid) (start_x start_y end_x end_y : Nat)
    (s : Rng) : Grid × Rng :=
  let uw : Bool × Rng := if 15 < distance then (true, s) else gen_bool 3 10 s
  if uw.1 then create_winding_corridor t start_x start_y end_x end_y uw.2
  else routeCorridor3 t start_x start_y end_x end_y uw.2

/-- The routing-strategy choice for one connection, with the source's
    short-circuit draws: branching, winding, Z or simple L. -/
def routeCorridor (bigPair : Bool) (distance : Nat) (t : Grid)
    (start_x start_y end_x end_y : Nat) (s : Rng) : Grid × Rng :=
  let ub : Bool × Rng :=
    if bigPair = true ∨ 20 < distance then (true, s)
    else gen_bool 2 5 s
  if ub.1 then create_branching_corridor t start_x start_y end_x end_y ub.2
  else routeCorridor2 distance t start_x start_y end_x end_y ub.2

/-- The 40% door stamp at a wall cell adjacent to one corridor end. -/
def maybeDoor (t : Grid) (start_x start_y end_x end_y : Nat) (s : Rng) : Grid × Rng :=
  let dr := gen_bool 2 5 s
  if dr.1 then
    let ast := gen_bool 1 2 dr.2
    match if ast.1 then find_door_position t start_x start_y
          else find_door_position t end_x end_y with
    | some p => (setTile t p.2 p.1 TileType.Door, ast.2)
    | none => (t, ast.2)
  else (t, dr.2)

/-- Carve one corridor for a connection, choosing the routing strategy
    by the source's short-circuit heuristic, then maybe stamp a door. -/
def corridorFor (rooms : List Room) (conn : Nat × Nat) (ts : Grid × Rng) : Grid × Rng :=
  let rFrom := rooms.getD conn.1 defaultRoom
  let rTo := rooms.getD conn.2 defaultRoom
  let start_x := rFrom.center.1
  let start_y := rFrom.center.2
  let end_x := rTo.center.1
  let end_y := rTo.center.2
  let distance := ((start_x : Int) - end_x).natAbs + ((start_y : Int) - end_y).natAbs
  let ct := routeCorridor
    (decide (rFrom.size = RoomSize.Large ∧ rTo.size = RoomSize.Large)) distance
    ts.1 start_x start_y end_x end_y ts.2
  maybeDoor ct.1 start_x start_y end_x end_y ct.2

def connect_rooms (t : Grid) (rooms : List Room) (s : Rng) : Option (Grid × Rng) :=
  if rooms.length ≤ 1 then some (t, s)
  else
    let connections := (List.range (rooms.length - 1)).map (fun i => (i, i + 1))
    let connections :=
      if 2 < rooms.length then connections ++ [(rooms.length - 1, 0)] else connections
    match extraConnLoop rooms.length connections s (rooms.length / 2) with
    | none => none
    | some cs =>
      let res := cs.1.foldl (fun ts conn => corridorFor rooms conn ts) (t, cs.2)
      some (add_extra_corridors res.1 rooms res.2)

/-- The size-class draw of generate_rooms: 0..=20 Large, 21..=60 Medium,
    else Small. -/
def sizeCategory (catd : Nat) : RoomSize :=
  if catd ≤ 20 then RoomSize.Large
  else if catd ≤ 60 then RoomSize.Medium
  else RoomSize.Small

/-- One dimension draw for a size class. -/
def mkDim (cat : RoomSize) (s : Rng) : Nat × Rng :=
  match cat with
  | RoomSize.Large => gen_range 10 15 s
  | RoomSize.Medium => gen_range 6 10 s
  | RoomSize.Small => gen_range 3 6 s

/-- The shape-variant draw for a size class. -/
def roomTypeFor (cat : RoomSize) (typed : Nat) : RoomType :=
  match cat with
  | RoomSize.Large =>
    if typed ≤ 40 then RoomType.Rectangular
    else if typed ≤ 60 then RoomType.Pillared
    else if typed ≤ 80 then RoomType.CrossShaped
    else RoomType.LargeHall
  | RoomSize.Medium =>
    if typed ≤ 30 then RoomType.Rectangular
    else if typed ≤ 50 then RoomType.Circular
    else if typed ≤ 70 then RoomType.LShaped
    else if typed ≤ 90 then RoomType.Pillared
    else RoomType.CrossShaped
  | RoomSize.Small =>
    if typed ≤ 60 then RoomType.Rectangular
    else if typed ≤ 90 then RoomType.Circular
    else RoomType.SmallChamber

/-- The body of one placement attempt after the size-class draw:
    dimensions, position, shape variant. -/
def mkCandidateFrom (cat : RoomSize) (s : Rng) : Room × Rng :=
  let d1 := mkDim cat s
  let d2 := mkDim cat d1.2
  let p1 := gen_range 1 (MAP_WIDTH - d1.1 - 1) d2.2
  let p2 := gen_range 1 (MAP_HEIGHT - d2.1 - 1) p1.2
  let ty := gen_range 0 100 p2.2
  (⟨p1.1, p2.1, d1.1, d2.1, roomTypeFor cat ty.1⟩, ty.2)

/-- One candidate room: size class, dimensions, position, shape. -/
def mkCandidate (s : Rng) : Room × Rng :=
  let r1 := gen_range 0 100 s
  mkCandidateFrom (sizeCategory r1.1) r1.2

/-- The while loop of generate_rooms; fuel is the remaining attempt budget. -/
def generate_rooms_go (num : Nat) : List Room → Rng → Nat → List Room × Rng
  | rooms, s, 0 => (rooms, s)
  | rooms, s, fuel + 1 =>
    if rooms.length < num then
      let c := mkCandidate s
      if rooms.any (fun er => decide (Room.overlaps c.1 er)) then
        generate_rooms_go num rooms c.2 fuel
      else generate_rooms_go num (rooms ++ [c.1]) c.2 fuel
    else (rooms, s)

def generate_rooms (s : Rng) : List Room × Rng :=
  let nr := gen_range 20 30 s
  generate_rooms_go nr.1 [] nr.2 100

/-- Floor cells of the whole grid, row-major (spawn candidates). -/
def floorTilesAll (t : Grid) : List (Nat × Nat) :=
  forRange 0 MAP_HEIGHT (fun acc y =>
    forRange 0 MAP_WIDTH (fun acc x =>
      if getTile t y x = TileType.Floor then acc ++ [(x, y)] else acc) acc) []

/-- find_spawn_position: draws from its own ambient source, mirroring
    the fresh rand::thread_rng() created inside the source function. -/
def find_spawn_position (t : Grid) (ambient : Rng) : Nat × Nat :=
  let floor_tiles := floorTilesAll t
  if floor_tiles.length ≠ 0 then
    floor_tiles.getD (gen_range 0 floor_tiles.length ambient).1 (0, 0)
  else (MAP_WIDTH / 2, MAP_HEIGHT / 2)

def assign_biomes (b : BGrid) (rooms : List Room) (s : Rng) : BGrid × Rng :=
  let available := [BiomeType.Caves, BiomeType.Groves, BiomeType.Labyrinth,
                    BiomeType.Catacombs]
  let kr := gen_range 0 available.length s
  let map_biome := available.getD kr.1 BiomeType.Caves
  let b := rooms.foldl (fun b r =>
    forRange r.y (r.y + r.height) (fun b y =>
      forRange r.x (r.x + r.width) (fun b x =>
        if y < MAP_HEIGHT ∧ x < MAP_WIDTH then setBiome b y x map_biome else b) b) b) b
  let b := forRange 0 MAP_HEIGHT (fun b y =>
    forRange 0 MAP_WIDTH (fun b x => setBiome b y x map_biome) b) b
  (b, kr.2)

/-- TileMap::generate_map.  The ambient stream feeds only the spawn
    scan (the source's hidden thread_rng); the threaded stream s feeds
    every other stage and is returned for the subsequent stair pass. -/
def generate_map (s ambient : Rng) :
    Option (Grid × List Room × BGrid × (Nat × Nat) × Rng) :=
  let tiles0 : Grid := ⟨fun _ _ => TileType.Wall⟩
  let biomes0 : BGrid := ⟨fun _ _ => BiomeType.Caves⟩
  let gr := generate_rooms s
  let ct := gr.1.foldl (fun ts r => Room.carve r ts.1 ts.2) (tiles0, gr.2)
  match connect_rooms ct.1 gr.1 ct.2 with
  | none => none
  | some cr =>
    let sr := add_secret_rooms cr.1 gr.1 cr.2
    let er := add_extra_corridors sr.1 gr.1 sr.2
    let ab := assign_biomes biomes0 gr.1 er.2
    some (er.1, gr.1, ab.1, find_spawn_position er.1 ambient, ab.2)

structure TileMapD where
  tiles : Grid
  rooms : List Room
  biomes : BGrid
  spawn_position : Nat × Nat
  down_stairs_pos : Option (Nat × Nat)
  up_stairs_pos : Option (Nat × Nat)
  current_level : Nat

def TileMapD.get_spawn_position (m : TileMapD) : Nat × Nat := m.spawn_position

def TileMapD.get_biome_at (m : TileMapD) (x y : Nat) : BiomeType :=
  if x < MAP_WIDTH ∧ y < MAP_HEIGHT then getBiome m.biomes y x else BiomeType.Caves

def find_valid_position_in_room (room : Room) (s : Rng) : (Nat × Nat) × Rng :=
  let width_range := room.width - 2
  let height_range := room.height - 2
  let xr : Nat × Rng :=
    if 0 < width_range then
      (room.x + 1 + (gen_range 0 width_range s).1, (gen_range 0 width_range s).2)
    else (room.x + room.width / 2, s)
  let yr : Nat × Rng :=
    if 0 < height_range then
      (room.y + 1 + (gen_range 0 height_range xr.2).1, (gen_range 0 height_range xr.2).2)
    else (room.y + room.height / 2, xr.2)
  ((xr.1, yr.1), yr.2)

/-- The stair-clearing pass of add_stairs, written pointwise;
    clearStairs_eq_loop proves it equal, cell for cell, to the source's
    literal double loop (clearStairsLoop below). -/
def clearStairs (t : Grid) : Grid :=
  ⟨fun y x =>
    if y < MAP_HEIGHT ∧ x < MAP_WIDTH ∧
       (getTile t y x = TileType.StairsDown ∨ getTile t y x = TileType.StairsUp) then
      TileType.Floor
    else t.f y x⟩

/-- The literal double loop of the source's stair-clearing pass. -/
def clearStairsLoop (t : Grid) : Grid :=
  forRange 0 MAP_HEIGHT (fun t y =>
    forRange 0 MAP_WIDTH (fun t x =>
      if getTile t y x = TileType.StairsDown ∨ getTile t y x = TileType.StairsUp then
        setTile t y x TileType.Floor
      else t) t) t

/-- The cardinal-neighbour probe used on an up/down stair collision. -/
def probeOffsets (t : Grid) (x y : Nat) : Option (Nat × Nat) :=
  ([((1 : Int), (0 : Int)), (-1, 0), (0, 1), (0, -1)]).findSome? (fun d =>
    let nx := (x : Int) + d.1
    let ny := (y : Int) + d.2
    if 0 < nx ∧ nx < (MAP_WIDTH : Int) - 1 ∧ 0 < ny ∧ ny < (MAP_HEIGHT : Int) - 1 ∧
       getTile t ny.toNat nx.toNat = TileType.Floor then
      some (nx.toNat, ny.toNat)
    else none)

/-- TileMap::add_stairs.  none models the source's non-results: the
    panic on an empty rooms vector, or the different-room redraw loop
    spinning forever on the given stream. -/
def add_stairs (m : TileMapD) (s : Rng) : Option TileMapD :=
  if m.rooms.length = 0 then none
  else
    let t0 := clearStairs m.tiles
    let di := gen_range 0 m.rooms.length s
    let down_room := m.rooms.getD di.1 defaultRoom
    let fv := find_valid_position_in_room down_room di.2
    let dp := fv.1
    let t := setTile t0 dp.2 dp.1 TileType.StairsDown
    if 0 < m.current_level then
      let pick : Option (Nat × Rng) :=
        if 1 < m.rooms.length then drawDifferent di.1 m.rooms.length fv.2
        else some (0, fv.2)
      match pick with
      | none => none
      | some (up_idx, s2) =>
        let up_room := m.rooms.getD up_idx defaultRoom
        let up := (find_valid_position_in_room up_room s2).1
        if up.1 = dp.1 ∧ up.2 = dp.2 then
          match probeOffsets t up.1 up.2 with
          | some p =>
            some ⟨setTile t p.2 p.1 TileType.StairsUp, m.rooms, m.biomes,
                  m.spawn_position, some dp, some p, m.current_level⟩
          | none =>
            some ⟨setTile t up.2 up.1 TileType.StairsUp, m.rooms, m.biomes,
                  m.spawn_position, some dp, some up, m.current_level⟩
        else
          some ⟨setTile t up.2 up.1 TileType.StairsUp, m.rooms, m.biomes,
                m.spawn_position, some dp, some up, m.current_level⟩
    else
      some ⟨t, m.rooms, m.biomes, m.spawn_position, some dp, none, m.current_level⟩

/-- The generation pipeline of TileMap::new / TileMap::new_level for a
    given level tag: generate_map followed by add_stairs. -/
def mkLevel (level : Nat) (s ambient : Rng) : Option TileMapD :=
  match generate_map s ambient with
  | none => none
  | some g =>
    add_stairs ⟨g.1, g.2.1, g.2.2.1, g.2.2.2.1, none, none, level⟩ g.2.2.2.2

/-! ## Basic lemmas -/

theorem getTile_setTile (t : Grid) (y x : Nat) (v : TileType) (y' x' : Nat) :
    getTile (setTile t y x v) y' x' = if y' = y ∧ x' = x then v else getTile t y' x' := rfl

theorem foldl_induction {α β : Type} (P : α → Prop) (f : α → β → α) :
    ∀ (l : List β) (init : α), P init → (∀ a b, b ∈ l → P a → P (f a b)) →
      P (l.foldl f init) := by
  intro l
  induction l with
  | nil => intro init h0 _; exact h0
  | cons b l ih =>
    intro init h0 hstep
    exact ih (f init b) (hstep init b (List.mem_cons_self b l) h0)
      (fun a c hc ha => hstep a c (List.mem_cons_of_mem _ hc) ha)

theorem forRange_induction {α : Type} (P : α → Prop) (a b : Nat) (f : α → Nat → α)
    (init : α) (h0 : P init) (hstep : ∀ st i, a ≤ i → i < b → P st → P (f st i)) :
    P (forRange a b f init) := by
  unfold forRange
  refine foldl_induction P f _ init h0 ?_
  intro st i hi hst
  have h := List.mem_range'_1.mp hi
  exact hstep st i h.1 (by omega) hst

theorem gen_range_bounds (lo hi : Nat) (s : Rng) (h : lo < hi) :
    lo ≤ (gen_range lo hi s).1 ∧ (gen_range lo hi s).1 < hi := by
  dsimp [gen_range]
  have h2 : (nextRaw s).1 % (hi - lo) < hi - lo := Nat.mod_lt _ (by omega)
  omega

theorem gen_range_incl_bounds (lo hi : Nat) (s : Rng) (h : lo ≤ hi) :
    lo ≤ (gen_range_incl lo hi s).1 ∧ (gen_range_incl lo hi s).1 ≤ hi := by
  dsimp [gen_range_incl]
  have h2 : (nextRaw s).1 % (hi + 1 - lo) < hi + 1 - lo := Nat.mod_lt _ (by omega)
  omega

/-! ## Room generation invariants -/

/-- Every room produced by a generation candidate is well placed: a
    1-tile margin inside the grid and dimensions within 3..14. -/
def roomOK (r : Room) : Prop :=
  1 ≤ r.x ∧ 1 ≤ r.y ∧ r.x + r.width ≤ MAP_WIDTH - 2 ∧ r.y + r.height ≤ MAP_HEIGHT - 2 ∧
  3 ≤ r.width ∧ r.width ≤ 14 ∧ 3 ≤ r.height ∧ r.height ≤ 14

theorem mkDim_bounds (cat : RoomSize) (s : Rng) :
    3 ≤ (mkDim cat s).1 ∧ (mkDim cat s).1 ≤ 14 := by
  cases cat with
  | Small => have := gen_range_bounds 3 6 s (by omega); dsimp [mkDim]; omega
  | Medium => have := gen_range_bounds 6 10 s (by omega); dsimp [mkDim]; omega
  | Large => have := gen_range_bounds 10 15 s (by omega); dsimp [mkDim]; omega

theorem mkCandidateFrom_ok (cat : RoomSize) (s : Rng) :
    roomOK (mkCandidateFrom cat s).1 := by
  have hW : MAP_WIDTH = 45 := rfl
  have hH : MAP_HEIGHT = 25 := rfl
  dsimp only [mkCandidateFrom, roomOK]
  have h1 := mkDim_bounds cat s
  have h2 := mkDim_bounds cat (mkDim cat s).2
  have hx := gen_range_bounds 1 (MAP_WIDTH - (mkDim cat s).1 - 1)
    ((mkDim cat (mkDim cat s).2).2) (by omega)
  have hy := gen_range_bounds 1 (MAP_HEIGHT - (mkDim cat (mkDim cat s).2).1 - 1)
    ((gen_range 1 (MAP_WIDTH - (mkDim cat s).1 - 1) ((mkDim cat (mkDim cat s).2).2)).2)
    (by omega)
  refine ⟨by omega, by omega, by omega, by omega, h1.1, h1.2, h2.1, h2.2⟩

theorem mkCandidate_ok (s : Rng) : roomOK (mkCandidate s).1 :=
  mkCandidateFrom_ok _ _

theorem overlaps_symm (a b : Room) : Room.overlaps a b ↔ Room.overlaps b a := by
  unfold Room.overlaps
  omega

/-- The room-placement loop only appends candidates that pass the
    overlap test, so placement, pairwise non-overlap and the length
    bound are loop invariants. -/
theorem generate_rooms_go_inv (num : Nat) :
    ∀ (fuel : Nat) (rooms : List Room) (s : Rng),
      (∀ r ∈ rooms, roomOK r) →
      List.Pairwise (fun a b => ¬ Room.overlaps a b) rooms →
      (∀ r ∈ (generate_rooms_go num rooms s fuel).1, roomOK r) ∧
        List.Pairwise (fun a b => ¬ Room.overlaps a b) (generate_rooms_go num rooms s fuel).1 ∧
        rooms.length ≤ (generate_rooms_go num rooms s fuel).1.length := by
  intro fuel
  induction fuel with
  | zero => intro rooms s hOK hPW; exact ⟨hOK, hPW, Nat.le_refl _⟩
  | succ fuel ih =>
    intro rooms s hOK hPW
    rw [generate_rooms_go]
    dsimp only
    split
    · split
      · exact ih rooms _ hOK hPW
      · rename_i hnlt hany
        have hnew := mkCandidate_ok s
        have hno : ∀ r ∈ rooms, ¬ Room.overlaps (mkCandidate s).1 r := by
          intro r hr hov
          exact hany (List.any_eq_true.mpr ⟨r, hr, decide_eq_true hov⟩)
        have hOK' : ∀ r ∈ rooms ++ [(mkCandidate s).1], roomOK r := by
          intro r hr
          rcases List.mem_append.mp hr with h | h
          · exact hOK r h
          · simp only [List.mem_singleton] at h; exact h ▸ hnew
        have hPW' : List.Pairwise (fun a b => ¬ Room.overlaps a b)
            (rooms ++ [(mkCandidate s).1]) := by
          refine List.pairwise_append.mpr ⟨hPW, List.pairwise_singleton _ _, ?_⟩
          intro a ha b hb
          simp only [List.mem_singleton] at hb
          subst hb
          exact fun hov => hno a ha ((overlaps_symm _ _).mpr hov)
        have := ih (rooms ++ [(mkCandidate s).1]) (mkCandidate s).2 hOK' hPW'
        refine ⟨this.1, this.2.1, ?_⟩
        calc rooms.length ≤ (rooms ++ [(mkCandidate s).1]).length := by
              simp
          _ ≤ _ := this.2.2
    · exact ⟨hOK, hPW, Nat.le_refl _⟩

theorem generate_rooms_ok (s : Rng) : ∀ r ∈ (generate_rooms s).1, roomOK r :=
  (generate_rooms_go_inv _ _ _ _ (by simp) (by simp)).1

theorem generate_rooms_pairwise (s : Rng) :
    List.Pairwise (fun a b => ¬ Room.overlaps a b) (generate_rooms s).1 :=
  (generate_rooms_go_inv _ _ _ _ (by simp) (by simp)).2.1

/-- The first attempt always succeeds (the overlap test over an empty
    list is vacuous), so the loop never ends with zero rooms. -/
theorem generate_rooms_nonempty (s : Rng) : 1 ≤ (generate_rooms s).1.length := by
  unfold generate_rooms
  dsimp only
  have hnum : 0 < (gen_range 20 30 s).1 :=
    lt_of_lt_of_le (by omega) (gen_range_bounds 20 30 s (by omega)).1
  rw [show (100 : Nat) = 99 + 1 from rfl, generate_rooms_go]
  simp only [List.length_nil, List.any_nil, Bool.false_eq_true, if_false]
  rw [if_pos hnum]
  have := (generate_rooms_go_inv (gen_range 20 30 s).1 99
    ([] ++ [(mkCandidate (gen_range 20 30 s).2).1]) (mkCandidate (gen_range 20 30 s).2).2
    (by intro r hr; simp at hr; exact hr ▸ mkCandidate_ok _)
    (by simp)).2.2
  simpa using this

/-- The spec's reading of the no-overlap test: the two bounding boxes,
    each inflated by one tile on every side, share no point of the
    integer plane. -/
def inflatedDisjoint (a b : Room) : Prop :=
  ∀ px py : Int,
    ¬ (((a.x : Int) - 1 ≤ px ∧ px ≤ (a.x : Int) + a.width ∧
        (a.y : Int) - 1 ≤ py ∧ py ≤ (a.y : Int) + a.height) ∧
       ((b.x : Int) - 1 ≤ px ∧ px ≤ (b.x : Int) + b.width ∧
        (b.y : Int) - 1 ≤ py ∧ py ≤ (b.y : Int) + b.height))

theorem not_overlaps_iff_inflatedDisjoint (a b : Room) :
    ¬ Room.overlaps a b ↔ inflatedDisjoint a b := by
  unfold Room.overlaps inflatedDisjoint
  constructor
  · intro h px py hmem
    rw [not_not] at h
    omega
  · intro h hov
    rw [not_or, not_or, not_or] at hov
    exact h (((max a.x b.x : Nat) : Int) - 1) (((max a.y b.y : Nat) : Int) - 1)
      (by omega)

/-! ## Floor-tile collection and spawn -/

theorem floorTilesAll_mem (t : Grid) :
    ∀ p ∈ floorTilesAll t,
      p.1 < MAP_WIDTH ∧ p.2 < MAP_HEIGHT ∧ getTile t p.2 p.1 = TileType.Floor := by
  unfold floorTilesAll
  refine forRange_induction
    (fun (acc : List (Nat × Nat)) => ∀ p ∈ acc,
      p.1 < MAP_WIDTH ∧ p.2 < MAP_HEIGHT ∧ getTile t p.2 p.1 = TileType.Floor)
    0 MAP_HEIGHT _ _ (by simp) ?_
  intro acc y _ hyH hacc
  refine forRange_induction
    (fun (acc : List (Nat × Nat)) => ∀ p ∈ acc,
      p.1 < MAP_WIDTH ∧ p.2 < MAP_HEIGHT ∧ getTile t p.2 p.1 = TileType.Floor)
    0 MAP_WIDTH _ _ hacc ?_
  intro acc2 x _ hxW hacc2
  intro p hp
  split at hp
  · rcases List.mem_append.mp hp with h | h
    · exact hacc2 p h
    · simp only [List.mem_singleton] at h
      subst h
      rename_i hfloor
      exact ⟨hxW, hyH, hfloor⟩
  · exact hacc2 p hp

theorem getD_mem {α : Type} (l : List α) (i : Nat) (d : α) (h : i < l.length) :
    l.getD i d ∈ l := by
  rw [List.getD_eq_getElem?_getD, List.getElem?_eq_getElem h, Option.getD_some]
  exact List.getElem_mem h

theorem find_spawn_position_mem (t : Grid) (ambient : Rng)
    (h : (floorTilesAll t).length ≠ 0) :
    find_spawn_position t ambient ∈ floorTilesAll t := by
  unfold find_spawn_position
  rw [if_pos h]
  exact getD_mem _ _ _ (gen_range_bounds 0 _ ambient (by omega)).2

theorem find_spawn_position_bounds (t : Grid) (ambient : Rng) :
    (find_spawn_position t ambient).1 < MAP_WIDTH ∧
      (find_spawn_position t ambient).2 < MAP_HEIGHT := by
  by_cases h : (floorTilesAll t).length ≠ 0
  · have := floorTilesAll_mem t _ (find_spawn_position_mem t ambient h)
    exact ⟨this.1, this.2.1⟩
  · unfold find_spawn_position
    rw [if_neg h]
    exact ⟨by decide, by decide⟩

/-- With any Floor present, the chosen spawn cell holds Floor in the
    grid it was scanned from. -/
theorem find_spawn_position_floor (t : Grid) (ambient : Rng)
    (h : (floorTilesAll t).length ≠ 0) :
    getTile t (find_spawn_position t ambient).2 (find_spawn_position t ambient).1 =
      TileType.Floor :=
  (floorTilesAll_mem t _ (find_spawn_position_mem t ambient h)).2.2

/-! ## Ambient randomness feeds only the spawn scan -/

/-- All components of generate_map except spawn_position are computed
    from the threaded stream alone. -/
theorem generate_map_core_ambient_free (s a a' : Rng) :
    Option.map (fun r => (r.1, r.2.1, r.2.2.1, r.2.2.2.2)) (generate_map s a) =
      Option.map (fun r => (r.1, r.2.1, r.2.2.1, r.2.2.2.2)) (generate_map s a') := by
  unfold generate_map
  dsimp only
  split <;> rfl

/-- add_stairs neither reads the biome grid nor the spawn position:
    every field of its result other than those two is determined by the
    tiles, rooms, level and stream alone, and the two are copied. -/
theorem add_stairs_indep (t : Grid) (rooms : List Room) (b1 b2 : BGrid)
    (p1 p2 : Nat × Nat) (lv : Nat) (s : Rng) :
    Option.map (fun m => (m.tiles, m.rooms, m.down_stairs_pos, m.up_stairs_pos,
        m.current_level))
      (add_stairs ⟨t, rooms, b1, p1, none, none, lv⟩ s) =
    Option.map (fun m => (m.tiles, m.rooms, m.down_stairs_pos, m.up_stairs_pos,
        m.current_level))
      (add_stairs ⟨t, rooms, b2, p2, none, none, lv⟩ s) := by
  unfold add_stairs
  dsimp only
  split
  · rfl
  · split
    · split
      · rfl
      · split
        · split <;> rfl
        · rfl
    · rfl

/-! ## What add_stairs writes -/

theorem clearStairs_cases (t : Grid) (y x : Nat) :
    getTile (clearStairs t) y x = getTile t y x ∨
      getTile (clearStairs t) y x = TileType.Floor := by
  dsimp only [clearStairs, getTile]
  split
  · exact Or.inr rfl
  · exact Or.inl rfl

theorem setTile_cases (t : Grid) (y x : Nat) (v : TileType) (y' x' : Nat) :
    getTile (setTile t y x v) y' x' = getTile t y' x' ∨
      getTile (setTile t y x v) y' x' = v := by
  rw [getTile_setTile]
  split
  · exact Or.inr rfl
  · exact Or.inl rfl

/-- Cells after the stair pass: unchanged, or cleared to Floor, or one
    of the two stair tiles. -/
def stairWrite (t t' : Grid) (y x : Nat) : Prop :=
  getTile t' y x = getTile t y x ∨ getTile t' y x = TileType.Floor ∨
    getTile t' y x = TileType.StairsDown ∨ getTile t' y x = TileType.StairsUp

theorem stairWrite_two (t : Grid) (y1 x1 y2 x2 y x : Nat) :
    stairWrite t (setTile (setTile (clearStairs t) y1 x1 TileType.StairsDown)
      y2 x2 TileType.StairsUp) y x := by
  unfold stairWrite
  rcases setTile_cases (setTile (clearStairs t) y1 x1 TileType.StairsDown)
      y2 x2 TileType.StairsUp y x with h | h
  · rw [h]
    rcases setTile_cases (clearStairs t) y1 x1 TileType.StairsDown y x with h2 | h2
    · rw [h2]
      rcases clearStairs_cases t y x with h3 | h3
      · exact Or.inl h3
      · exact Or.inr (Or.inl h3)
    · exact Or.inr (Or.inr (Or.inl h2))
  · exact Or.inr (Or.inr (Or.inr h))

theorem stairWrite_one (t : Grid) (y1 x1 y x : Nat) :
    stairWrite t (setTile (clearStairs t) y1 x1 TileType.StairsDown) y x := by
  unfold stairWrite
  rcases setTile_cases (clearStairs t) y1 x1 TileType.StairsDown y x with h2 | h2
  · rw [h2]
    rcases clearStairs_cases t y x with h3 | h3
    · exact Or.inl h3
    · exact Or.inr (Or.inl h3)
  · exact Or.inr (Or.inr (Or.inl h2))

/-- add_stairs only clears old stairs to Floor and stamps the new stair
    tiles; every other cell keeps its value, and the spawn position,
    rooms, biomes and level are copied unchanged. -/
theorem add_stairs_spec (m m' : TileMapD) (s : Rng) (h : add_stairs m s = some m') :
    (∀ y x, stairWrite m.tiles m'.tiles y x) ∧
      m'.spawn_position = m.spawn_position ∧ m'.rooms = m.rooms ∧
      m'.biomes = m.biomes ∧ m'.current_level = m.current_level := by
  unfold add_stairs at h
  dsimp only at h
  split at h
  · exact absurd h (by simp)
  · split at h
    · split at h
      · exact absurd h (by simp)
      · split at h
        · split at h
          · rw [Option.some.injEq] at h
            subst h
            exact ⟨fun y x => stairWrite_two _ _ _ _ _ y x, rfl, rfl, rfl, rfl⟩
          · rw [Option.some.injEq] at h
            subst h
            exact ⟨fun y x => stairWrite_two _ _ _ _ _ y x, rfl, rfl, rfl, rfl⟩
        · rw [Option.some.injEq] at h
          subst h
          exact ⟨fun y x => stairWrite_two _ _ _ _ _ y x, rfl, rfl, rfl, rfl⟩
    · rw [Option.some.injEq] at h
      subst h
      exact ⟨fun y x => stairWrite_one _ _ _ y x, rfl, rfl, rfl, rfl⟩

/-! ## Border invariant -/

/-- Every cell of the outer ring holds Wall. -/
def borderWall (t : Grid) : Prop :=
  ∀ y, y < MAP_HEIGHT → ∀ x, x < MAP_WIDTH →
    (y = 0 ∨ y = MAP_HEIGHT - 1 ∨ x = 0 ∨ x = MAP_WIDTH - 1) →
    getTile t y x = TileType.Wall

theorem borderWall_setTile_interior (t : Grid) {y x : Nat} (v : TileType)
    (hx : 0 < x) (hx2 : x < MAP_WIDTH - 1) (hy : 0 < y) (hy2 : y < MAP_HEIGHT - 1)
    (h : borderWall t) : borderWall (setTile t y x v) := by
  intro y' hy' x' hx' hb
  rw [getTile_setTile]
  split
  · have hW : MAP_WIDTH = 45 := rfl
    have hH : MAP_HEIGHT = 25 := rfl
    omega
  · exact h y' hy' x' hx' hb

theorem borderWall_setTile_wall (t : Grid) (y x : Nat) (h : borderWall t) :
    borderWall (setTile t y x TileType.Wall) := by
  intro y' hy' x' hx' hb
  rw [getTile_setTile]
  split
  · rfl
  · exact h y' hy' x' hx' hb

theorem carve_rectangular_border (r : Room) (t : Grid) (h : borderWall t) :
    borderWall (Room.carve_rectangular r t) := by
  unfold Room.carve_rectangular
  refine forRange_induction borderWall _ _ _ _ h ?_
  intro t1 y _ _ h1
  refine forRange_induction borderWall _ _ _ _ h1 ?_
  intro t2 x _ _ h2
  split
  · rename_i hg
    exact borderWall_setTile_interior _ _ hg.2.2.1 hg.2.2.2 hg.1 hg.2.1 h2
  · exact h2

theorem carve_circular_border (r : Room) (t : Grid) (h : borderWall t) :
    borderWall (Room.carve_circular r t) := by
  unfold Room.carve_circular
  refine forRange_induction borderWall _ _ _ _ h ?_
  intro t1 y _ _ h1
  refine forRange_induction borderWall _ _ _ _ h1 ?_
  intro t2 x _ _ h2
  split
  · rename_i hg
    split
    · exact borderWall_setTile_interior _ _ hg.2.2.1 hg.2.2.2 hg.1 hg.2.1 h2
    · exact h2
  · exact h2

theorem carve_cross_shaped_border (r : Room) (t : Grid) (h : borderWall t) :
    borderWall (Room.carve_cross_shaped r t) := by
  unfold Room.carve_cross_shaped
  dsimp only
  refine forRange_induction borderWall _ _ _ _ ?_ ?_
  · refine forRange_induction borderWall _ _ _ _ h ?_
    intro t1 y _ _ h1
    refine forRange_induction borderWall _ _ _ _ h1 ?_
    intro t2 x _ _ h2
    split
    · rename_i hg
      exact borderWall_setTile_interior _ _ hg.2.2.1 hg.2.2.2 hg.1 hg.2.1 h2
    · exact h2
  · intro t1 y _ _ h1
    refine forRange_induction borderWall _ _ _ _ h1 ?_
    intro t2 x _ _ h2
    split
    · rename_i hg
      exact borderWall_setTile_interior _ _ hg.2.2.1 hg.2.2.2 hg.1 hg.2.1 h2
    · exact h2

theorem carve_l_shaped_border (r : Room) (t : Grid) (h : borderWall t) :
    borderWall (Room.carve_l_shaped r t) := by
  unfold Room.carve_l_shaped
  dsimp only
  refine forRange_induction borderWall _ _ _ _ ?_ ?_
  · refine forRange_induction borderWall _ _ _ _ h ?_
    intro t1 y _ _ h1
    refine forRange_induction borderWall _ _ _ _ h1 ?_
    intro t2 x _ _ h2
    split
    · rename_i hg
      exact borderWall_setTile_interior _ _ hg.2.2.1 hg.2.2.2 hg.1 hg.2.1 h2
    · exact h2
  · intro t1 y _ _ h1
    refine forRange_induction borderWall _ _ _ _ h1 ?_
    intro t2 x _ _ h2
    split
    · rename_i hg
      exact borderWall_setTile_interior _ _ hg.2.2.1 hg.2.2.2 hg.1 hg.2.1 h2
    · exact h2

theorem carve_pillared_border (r : Room) (t : Grid) (s : Rng) (h : borderWall t) :
    borderWall (Room.carve_pillared r t s).1 := by
  unfold Room.carve_pillared
  dsimp only
  split
  · exact carve_rectangular_border r t h
  · refine forRange_induction (fun ts : Grid × Rng => borderWall ts.1) _ _ _ _
      (carve_rectangular_border r t h) ?_
    intro ts _ _ _ hts
    obtain ⟨t1, s1⟩ := ts
    dsimp only at hts ⊢
    refine forRange_induction borderWall _ _ _ _ hts ?_
    intro t2 py _ _ h2
    refine forRange_induction borderWall _ _ _ _ h2 ?_
    intro t3 px _ _ h3
    split
    · exact borderWall_setTile_wall _ _ _ h3
    · exact h3

theorem carve_small_chamber_border (r : Room) (t : Grid) (h : borderWall t) :
    borderWall (Room.carve_small_chamber r t) := by
  unfold Room.carve_small_chamber
  dsimp only
  split
  · split
    · exact borderWall_setTile_wall _ _ _ (carve_rectangular_border r t h)
    · exact carve_rectangular_border r t h
  · exact carve_rectangular_border r t h

theorem add_central_feature_border (r : Room) (t : Grid) (s : Rng) (h : borderWall t) :
    borderWall (Room.add_central_feature r t s).1 := by
  unfold Room.add_central_feature
  dsimp only
  refine forRange_induction borderWall _ _ _ _ h ?_
  intro t1 y _ _ h1
  refine forRange_induction borderWall _ _ _ _ h1 ?_
  intro t2 x _ _ h2
  split
  · exact borderWall_setTile_wall _ _ _ h2
  · exact h2

theorem add_columns_border (r : Room) (t : Grid) (s : Rng) (h : borderWall t) :
    borderWall (Room.add_columns r t s).1 := by
  unfold Room.add_columns
  dsimp only
  refine forRange_induction (fun ts : Grid × Rng => borderWall ts.1) _ _ _ _ h ?_
  intro ts _ _ _ hts
  refine forRange_induction (fun ts : Grid × Rng => borderWall ts.1) _ _ _ _ hts ?_
  intro ts2 _ _ _ hts2
  obtain ⟨t2, s2⟩ := ts2
  dsimp only at hts2 ⊢
  split
  · exact borderWall_setTile_wall _ _ _ hts2
  · exact hts2

theorem add_divider_border (r : Room) (t : Grid) (s : Rng) (h : borderWall t) :
    borderWall (Room.add_divider r t s).1 := by
  have hH : borderWall (forRange (r.x + 1) (r.x + r.width - 1) (fun t x =>
      if x < r.x + r.width / 3 ∨ x > r.x + 2 * r.width / 3 then
        if r.y + r.height / 2 < MAP_HEIGHT then
          setTile t (r.y + r.height / 2) x TileType.Wall
        else t
      else t) t) := by
    refine forRange_induction borderWall _ _ _ _ h ?_
    intro t1 i _ _ h1
    split
    · split
      · exact borderWall_setTile_wall _ _ _ h1
      · exact h1
    · exact h1
  have hV : borderWall (forRange (r.y + 1) (r.y + r.height - 1) (fun t y =>
      if y < r.y + r.height / 3 ∨ y > r.y + 2 * r.height / 3 then
        if r.x + r.width / 2 < MAP_WIDTH then
          setTile t y (r.x + r.width / 2) TileType.Wall
        else t
      else t) t) := by
    refine forRange_induction borderWall _ _ _ _ h ?_
    intro t1 i _ _ h1
    split
    · split
      · exact borderWall_setTile_wall _ _ _ h1
      · exact h1
    · exact h1
  unfold Room.add_divider
  dsimp only
  split
  · exact hH
  · split
    · split
      · exact hH
      · exact hV
    · simpa using hV

theorem carve_large_hall_border (r : Room) (t : Grid) (s : Rng) (h : borderWall t) :
    borderWall (Room.carve_large_hall r t s).1 := by
  unfold Room.carve_large_hall
  dsimp only
  split
  · exact carve_rectangular_border r t h
  · split
    · exact add_central_feature_border _ _ _ (carve_rectangular_border r t h)
    · split
      · exact add_columns_border _ _ _ (carve_rectangular_border r t h)
      · split
        · exact add_divider_border _ _ _ (carve_rectangular_border r t h)
        · exact carve_rectangular_border r t h

theorem create_horizontal_corridor_border (t : Grid) (x1 x2 y : Nat) (h : borderWall t) :
    borderWall (create_horizontal_corridor t x1 x2 y) := by
  unfold create_horizontal_corridor
  refine forRange_induction borderWall _ _ _ _ h ?_
  intro t1 x _ _ h1
  split
  · rename_i hg
    exact borderWall_setTile_interior _ _ hg.1 hg.2.1 hg.2.2.1 hg.2.2.2 h1
  · exact h1

theorem create_vertical_corridor_border (t : Grid) (y1 y2 x : Nat) (h : borderWall t) :
    borderWall (create_vertical_corridor t y1 y2 x) := by
  unfold create_vertical_corridor
  refine forRange_induction borderWall _ _ _ _ h ?_
  intro t1 y _ _ h1
  split
  · rename_i hg
    exact borderWall_setTile_interior _ _ hg.1 hg.2.1 hg.2.2.1 hg.2.2.2 h1
  · exact h1

theorem create_corridor_border (t : Grid) (sx sy ex ey : Nat) (h : borderWall t) :
    borderWall (create_corridor t sx sy ex ey) :=
  create_vertical_corridor_border _ _ _ _
    (create_horizontal_corridor_border _ _ _ _ h)

theorem create_z_corridor_border (t : Grid) (sx sy ex ey : Nat) (s : Rng)
    (h : borderWall t) : borderWall (create_z_corridor t sx sy ex ey s).1 := by
  unfold create_z_corridor
  dsimp only
  exact create_horizontal_corridor_border _ _ _ _
    (create_vertical_corridor_border _ _ _ _
      (create_horizontal_corridor_border _ _ _ _ h))

theorem segStep_border (ex ey jit : Nat) (cxy : Nat × Nat) (t : Grid) (s : Rng)
    (h : borderWall t) : borderWall (segStep ex ey jit cxy t s).2.1 := by
  unfold segStep
  dsimp only
  split
  · exact create_horizontal_corridor_border _ _ _ _ h
  · exact create_vertical_corridor_border _ _ _ _ h

theorem create_winding_corridor_border (t : Grid) (sx sy ex ey : Nat) (s : Rng)
    (h : borderWall t) : borderWall (create_winding_corridor t sx sy ex ey s).1 := by
  unfold create_winding_corridor
  dsimp only
  refine create_vertical_corridor_border _ _ _ _
    (create_horizontal_corridor_border _ _ _ _ ?_)
  refine forRange_induction (fun st : (Nat × Nat) × Grid × Rng => borderWall st.2.1)
    _ _ _ _ h ?_
  intro st _ _ _ hst
  exact segStep_border _ _ _ _ _ _ hst

theorem carveWalk_border (dx dy : Int) :
    ∀ (n : Nat) (t : Grid) (x y : Int), borderWall t →
      borderWall (carveWalk dx dy t x y n) := by
  intro n
  induction n with
  | zero => intro t x y h; exact h
  | succ n ih =>
    intro t x y h
    rw [carveWalk]
    split
    · exact h
    · rename_i hg
      refine ih _ _ _ (borderWall_setTile_interior _ _ ?_ ?_ ?_ ?_ h) <;>
      · have hW : MAP_WIDTH = 45 := rfl
        have hH : MAP_HEIGHT = 25 := rfl
        omega

theorem add_corridor_pillar_border (t : Grid) (x y : Nat) (h : borderWall t) :
    borderWall (add_corridor_pillar t x y) := by
  unfold add_corridor_pillar
  split
  · exact h
  · split
    · exact borderWall_setTile_wall _ _ _ h
    · exact h

theorem alcoveGo_border (dir : Int × Int) (x y : Nat) :
    ∀ (fuel i : Nat) (t : Grid), borderWall t →
      borderWall (alcoveGo dir x y t i fuel) := by
  intro fuel
  induction fuel with
  | zero => intro i t h; exact h
  | succ fuel ih =>
    intro i t h
    rw [alcoveGo]
    split
    · exact h
    · rename_i hg
      refine ih _ _ ?_
      have hmain : borderWall (setTile t
          ((y : Int) + dir.2 * (i : Int)).toNat ((x : Int) + dir.1 * (i : Int)).toNat
          TileType.Floor) := by
        refine borderWall_setTile_interior _ _ ?_ ?_ ?_ ?_ h <;>
        · have hW : MAP_WIDTH = 45 := rfl
          have hH : MAP_HEIGHT = 25 := rfl
          omega
      split
      · refine foldl_induction borderWall _ _ _ hmain ?_
        intro t2 j _ h2
        dsimp only
        split
        · exact h2
        · rename_i hg2
          refine borderWall_setTile_interior _ _ ?_ ?_ ?_ ?_ h2 <;>
          · have hW : MAP_WIDTH = 45 := rfl
            have hH : MAP_HEIGHT = 25 := rfl
            omega
      · exact hmain

theorem add_corridor_alcove_border (t : Grid) (x y : Nat) (s : Rng)
    (h : borderWall t) : borderWall (add_corridor_alcove t x y s).1 := by
  unfold add_corridor_alcove
  exact alcoveGo_border _ _ _ _ _ _ h

theorem add_corridor_widening_border (t : Grid) (x y : Nat) (s : Rng)
    (h : borderWall t) : borderWall (add_corridor_widening t x y s).1 := by
  unfold add_corridor_widening
  refine foldl_induction (fun ts : Grid × Rng => borderWall ts.1) _ _ _ h ?_
  intro ts dy _ hts
  refine foldl_induction (fun ts : Grid × Rng => borderWall ts.1) _ _ _ hts ?_
  intro ts2 dx _ hts2
  dsimp only
  split
  · exact hts2
  · split
    · exact hts2
    · rename_i hg1 hg2
      split
      · refine borderWall_setTile_interior _ _ ?_ ?_ ?_ ?_ hts2 <;>
        · have hW : MAP_WIDTH = 45 := rfl
          have hH : MAP_HEIGHT = 25 := rfl
          omega
      · exact hts2

theorem add_corridor_feature_border (t : Grid) (x y : Nat) (s : Rng)
    (h : borderWall t) : borderWall (add_corridor_feature t x y s).1 := by
  unfold add_corridor_feature
  dsimp only
  split
  · exact add_corridor_alcove_border _ _ _ _ h
  · split
    · exact add_corridor_pillar_border _ _ _ h
    · exact add_corridor_widening_border _ _ _ _ h

theorem branchSegStep_border (ex ey : Nat)
    (st : (Nat × Nat) × List (Nat × Nat) × Grid × Rng) (i : Nat)
    (h : borderWall st.2.2.1) : borderWall (branchSegStep ex ey st i).2.2.1 := by
  unfold branchSegStep
  dsimp only
  split
  · exact add_corridor_feature_border _ _ _ _ (segStep_border _ _ _ _ _ _ h)
  · exact segStep_border _ _ _ _ _ _ h

theorem branchCarveStep_border (pts : List (Nat × Nat)) (ts : Grid × Rng) (i : Nat)
    (h : borderWall ts.1) : borderWall (branchCarveStep pts ts i).1 := by
  unfold branchCarveStep
  exact carveWalk_border _ _ _ _ _ _ h

theorem create_branching_corridor_border (t : Grid) (sx sy ex ey : Nat) (s : Rng)
    (h : borderWall t) : borderWall (create_branching_corridor t sx sy ex ey s).1 := by
  unfold create_branching_corridor
  dsimp only
  have hst : borderWall ((forRange 0
      (min (max ((((sx : Int) - ex).natAbs + ((sy : Int) - ey).natAbs) / 4) 3) 6)
      (branchSegStep ex ey)
      (((sx, sy) : Nat × Nat), ([(sx, sy)] : List (Nat × Nat)), t, s)).2.2.1) := by
    refine forRange_induction
      (fun st : (Nat × Nat) × List (Nat × Nat) × Grid × Rng => borderWall st.2.2.1)
      _ _ _ _ h ?_
    intro st i _ _ hst
    exact branchSegStep_border _ _ _ _ hst
  have hmain : ∀ (st : (Nat × Nat) × List (Nat × Nat) × Grid × Rng),
      borderWall st.2.2.1 →
      borderWall (create_vertical_corridor
        (create_horizontal_corridor st.2.2.1 st.1.1 ex st.1.2) st.1.2 ey ex) :=
    fun st hb => create_vertical_corridor_border _ _ _ _
      (create_horizontal_corridor_border _ _ _ _ hb)
  split
  · exact hmain _ hst
  · refine forRange_induction (fun ts : Grid × Rng => borderWall ts.1) _ _ _ _
      (hmain _ hst) ?_
    intro ts i _ _ hts
    exact branchCarveStep_border _ _ _ hts

theorem carve_border (r : Room) (t : Grid) (s : Rng) (h : borderWall t) :
    borderWall (Room.carve r t s).1 := by
  unfold Room.carve
  cases r.room_type
  · exact carve_rectangular_border r t h
  · exact carve_circular_border r t h
  · exact carve_cross_shaped_border r t h
  · exact carve_l_shaped_border r t h
  · exact carve_pillared_border r t s h
  · exact carve_small_chamber_border r t h
  · exact carve_large_hall_border r t s h

theorem findSome?_spec {α β : Type} (Q : β → Prop) (f : α → Option β) :
    ∀ (l : List α), (∀ d ∈ l, ∀ q, f d = some q → Q q) →
      ∀ p, l.findSome? f = some p → Q p := by
  intro l
  induction l with
  | nil => intro _ p hp; simp [List.findSome?] at hp
  | cons a l ih =>
    intro h p hp
    rw [List.findSome?_cons] at hp
    cases hfa : f a with
    | some q =>
      rw [hfa] at hp
      cases hp
      exact h a (List.mem_cons_self a l) p hfa
    | none =>
      rw [hfa] at hp
      exact ih (fun d hd => h d (List.mem_cons_of_mem _ hd)) p hp

theorem door_dir_ok_interior (t : Grid) (x y : Nat) (d : Int × Int) (p : Nat × Nat)
    (h : door_dir_ok t x y d = some p) :
    0 < p.1 ∧ p.1 < MAP_WIDTH - 1 ∧ 0 < p.2 ∧ p.2 < MAP_HEIGHT - 1 := by
  unfold door_dir_ok at h
  dsimp only at h
  split at h
  · split at h
    · split at h
      · rename_i hg _ _
        cases h
        have hW : MAP_WIDTH = 45 := rfl
        have hH : MAP_HEIGHT = 25 := rfl
        refine ⟨?_, ?_, ?_, ?_⟩ <;> dsimp only <;> omega
      · exact absurd h (by simp)
    · exact absurd h (by simp)
  · exact absurd h (by simp)

theorem find_door_position_interior (t : Grid) (x y : Nat) (p : Nat × Nat)
    (h : find_door_position t x y = some p) :
    0 < p.1 ∧ p.1 < MAP_WIDTH - 1 ∧ 0 < p.2 ∧ p.2 < MAP_HEIGHT - 1 := by
  unfold find_door_position at h
  exact findSome?_spec _ _ _ (fun d _ q hq => door_dir_ok_interior t x y d q hq) p h

theorem routeCorridor3_border (t : Grid) (sx sy ex ey : Nat) (s : Rng)
    (h : borderWall t) : borderWall (routeCorridor3 t sx sy ex ey s).1 := by
  unfold routeCorridor3
  dsimp only
  split
  · exact create_z_corridor_border _ _ _ _ _ _ h
  · exact create_corridor_border _ _ _ _ _ h

theorem routeCorridor2_border (dist : Nat) (t : Grid) (sx sy ex ey : Nat) (s : Rng)
    (h : borderWall t) : borderWall (routeCorridor2 dist t sx sy ex ey s).1 := by
  unfold routeCorridor2
  dsimp only
  split
  · exact create_winding_corridor_border _ _ _ _ _ _ h
  · split
    · exact create_winding_corridor_border _ _ _ _ _ _ h
    · exact routeCorridor3_border _ _ _ _ _ _ h

theorem routeCorridor_border (bp : Bool) (dist : Nat) (t : Grid)
    (sx sy ex ey : Nat) (s : Rng) (h : borderWall t) :
    borderWall (routeCorridor bp dist t sx sy ex ey s).1 := by
  unfold routeCorridor
  dsimp only
  split
  · exact create_branching_corridor_border _ _ _ _ _ _ h
  · split
    · exact create_branching_corridor_border _ _ _ _ _ _ h
    · exact routeCorridor2_border _ _ _ _ _ _ _ h

theorem maybeDoor_border (t : Grid) (sx sy ex ey : Nat) (s : Rng) (h : borderWall t) :
    borderWall (maybeDoor t sx sy ex ey s).1 := by
  unfold maybeDoor
  dsimp only
  split
  · split
    · rename_i p hp
      have hint : 0 < p.1 ∧ p.1 < MAP_WIDTH - 1 ∧ 0 < p.2 ∧ p.2 < MAP_HEIGHT - 1 := by
        split at hp
        · exact find_door_position_interior _ _ _ _ hp
        · exact find_door_position_interior _ _ _ _ hp
      exact borderWall_setTile_interior _ _ hint.1 hint.2.1 hint.2.2.1 hint.2.2.2 h
    · exact h
  · exact h

theorem corridorFor_border (rooms : List Room) (conn : Nat × Nat) (ts : Grid × Rng)
    (h : borderWall ts.1) : borderWall (corridorFor rooms conn ts).1 := by
  unfold corridorFor
  exact maybeDoor_border _ _ _ _ _ _ (routeCorridor_border _ _ _ _ _ _ _ _ h)

theorem extraWalk_border :
    ∀ (n : Nat) (t : Grid) (x y : Int) (dir : Int × Int) (s : Rng), borderWall t →
      borderWall (extraWalk t x y dir s n).1 := by
  intro n
  induction n with
  | zero => intro t x y dir s h; exact h
  | succ n ih =>
    intro t x y dir s h
    rw [extraWalk]
    dsimp only
    split
    · exact h
    · rename_i hg
      have hset : borderWall (setTile t (y + dir.2).toNat (x + dir.1).toNat
          TileType.Floor) := by
        refine borderWall_setTile_interior _ _ ?_ ?_ ?_ ?_ h <;>
        · have hW : MAP_WIDTH = 45 := rfl
          have hH : MAP_HEIGHT = 25 := rfl
          omega
      split
      · exact ih _ _ _ _ _ (carveWalk_border _ _ _ _ _ _ hset)
      · exact ih _ _ _ _ _ hset

theorem add_extra_corridors_border (t : Grid) (rooms : List Room) (s : Rng)
    (h : borderWall t) : borderWall (add_extra_corridors t rooms s).1 := by
  unfold add_extra_corridors
  refine forRange_induction (fun ts : Grid × Rng => borderWall ts.1) _ _ _ _ h ?_
  intro ts _ _ _ hts
  dsimp only
  split
  · exact hts
  · exact extraWalk_border _ _ _ _ _ _ hts

theorem secret_carve_border (t : Grid) (X Y W H : Nat)
    (hX1 : 3 ≤ X) (hX2 : X < MAP_WIDTH - 6) (hY1 : 3 ≤ Y) (hY2 : Y < MAP_HEIGHT - 6)
    (hW : W < 6) (hH : H < 6) (h : borderWall t) :
    borderWall (setTile (forRange Y (Y + H) (fun t ry =>
      forRange X (X + W) (fun t rx =>
        if rx < MAP_WIDTH ∧ ry < MAP_HEIGHT then setTile t ry rx TileType.Floor
        else t) t) t) Y X TileType.SecretDoor) := by
  have hWd : MAP_WIDTH = 45 := rfl
  have hHd : MAP_HEIGHT = 25 := rfl
  refine borderWall_setTile_interior _ _ (by omega) (by omega) (by omega) (by omega) ?_
  refine forRange_induction borderWall _ _ _ _ h ?_
  intro t1 ry hry1 hry2 h1
  refine forRange_induction borderWall _ _ _ _ h1 ?_
  intro t2 rx hrx1 hrx2 h2
  split
  · exact borderWall_setTile_interior _ _ (by omega) (by omega) (by omega) (by omega) h2
  · exact h2

theorem secretAttempt_border :
    ∀ (fuel : Nat) (t : Grid) (s : Rng), borderWall t →
      borderWall (secretAttempt t s fuel).1 := by
  intro fuel
  induction fuel with
  | zero => intro t s h; exact h
  | succ fuel ih =>
    intro t s h
    rw [secretAttempt]
    dsimp only
    have hW : MAP_WIDTH = 45 := rfl
    have hH : MAP_HEIGHT = 25 := rfl
    have hx := gen_range_bounds 3 (MAP_WIDTH - 6) s (by omega)
    have hy := gen_range_bounds 3 (MAP_HEIGHT - 6) (gen_range 3 (MAP_WIDTH - 6) s).2
      (by omega)
    split
    · have hsw := gen_range_bounds 3 6
        ((gen_range 3 (MAP_HEIGHT - 6) (gen_range 3 (MAP_WIDTH - 6) s).2).2) (by omega)
      have hsh := gen_range_bounds 3 6
        ((gen_range 3 6
          ((gen_range 3 (MAP_HEIGHT - 6) (gen_range 3 (MAP_WIDTH - 6) s).2).2)).2)
        (by omega)
      split
      · have hc := secret_carve_border t _ _ _ _ hx.1 hx.2 hy.1 hy.2 hsw.2 hsh.2 h
        split
        · split
          · exact borderWall_setTile_wall _ _ _ hc
          · exact hc
        · exact hc
      · exact ih _ _ h
    · exact ih _ _ h

theorem add_secret_rooms_border (t : Grid) (rooms : List Room) (s : Rng)
    (h : borderWall t) : borderWall (add_secret_rooms t rooms s).1 := by
  unfold add_secret_rooms
  refine forRange_induction (fun ts : Grid × Rng => borderWall ts.1) _ _ _ _ h ?_
  intro ts _ _ _ hts
  exact secretAttempt_border _ _ _ hts

theorem connect_rooms_border (t : Grid) (rooms : List Room) (s : Rng)
    (res : Grid × Rng) (h : borderWall t) (hres : connect_rooms t rooms s = some res) :
    borderWall res.1 := by
  unfold connect_rooms at hres
  split at hres
  · cases hres
    exact h
  · dsimp only at hres
    split at hres
    · exact absurd hres (by simp)
    · cases hres
      refine add_extra_corridors_border _ _ _ ?_
      refine foldl_induction (fun ts : Grid × Rng => borderWall ts.1) _ _ _ h ?_
      intro ts conn _ hts
      exact corridorFor_border _ _ _ hts

theorem clearStairs_border (t : Grid) (h : borderWall t) :
    borderWall (clearStairs t) := by
  intro y hy x hx hbord
  have hw := h y hy x hx hbord
  dsimp only [clearStairs, getTile] at hw ⊢
  split
  · rename_i hc
    rcases hc.2.2 with h' | h' <;> rw [hw] at h' <;> cases h'
  · exact hw

theorem probeOffsets_interior (t : Grid) (x y : Nat) (p : Nat × Nat)
    (h : probeOffsets t x y = some p) :
    0 < p.1 ∧ p.1 < MAP_WIDTH - 1 ∧ 0 < p.2 ∧ p.2 < MAP_HEIGHT - 1 := by
  unfold probeOffsets at h
  refine findSome?_spec
    (fun q : Nat × Nat => 0 < q.1 ∧ q.1 < MAP_WIDTH - 1 ∧ 0 < q.2 ∧ q.2 < MAP_HEIGHT - 1)
    _ _ ?_ p h
  intro d _ q hq
  dsimp only at hq
  split at hq
  · rename_i hg
    cases hq
    have hW : MAP_WIDTH = 45 := rfl
    have hH : MAP_HEIGHT = 25 := rfl
    refine ⟨?_, ?_, ?_, ?_⟩ <;> dsimp only <;> omega
  · exact absurd hq (by simp)

theorem find_valid_position_interior (room : Room) (s : Rng) (h : roomOK room) :
    0 < (find_valid_position_in_room room s).1.1 ∧
      (find_valid_position_in_room room s).1.1 < MAP_WIDTH - 1 ∧
      0 < (find_valid_position_in_room room s).1.2 ∧
      (find_valid_position_in_room room s).1.2 < MAP_HEIGHT - 1 := by
  obtain ⟨h1, h2, h3, h4, h5, h6, h7, h8⟩ := h
  have hW : MAP_WIDTH = 45 := rfl
  have hH : MAP_HEIGHT = 25 := rfl
  unfold find_valid_position_in_room
  dsimp only
  rw [if_pos (by omega : 0 < room.width - 2), if_pos (by omega : 0 < room.height - 2)]
  have hgx := gen_range_bounds 0 (room.width - 2) s (by omega)
  have hgy := gen_range_bounds 0 (room.height - 2) (gen_range 0 (room.width - 2) s).2
    (by omega)
  dsimp only
  refine ⟨by omega, by omega, by omega, by omega⟩

theorem drawDifferent_lt (f len : Nat) (hlen : 0 < len) :
    ∀ (s : Rng) (j : Nat) (s' : Rng), drawDifferent f len s = some (j, s') → j < len := by
  intro s
  induction s with
  | nil =>
    intro j s' h
    unfold drawDifferent at h
    split at h
    · cases h
      exact Nat.mod_lt _ hlen
    · exact absurd h (by simp)
  | cons d rest ih =>
    intro j s' h
    unfold drawDifferent at h
    split at h
    · cases h
      exact Nat.mod_lt _ hlen
    · exact ih j s' h

theorem add_stairs_border (m m' : TileMapD) (s : Rng)
    (hrooms : ∀ r ∈ m.rooms, roomOK r) (hb : borderWall m.tiles)
    (h : add_stairs m s = some m') : borderWall m'.tiles := by
  unfold add_stairs at h
  dsimp only at h
  split at h
  · exact absurd h (by simp)
  · rename_i hne
    have hlen : 0 < m.rooms.length := by omega
    have hdr : roomOK (m.rooms.getD (gen_range 0 m.rooms.length s).1 defaultRoom) :=
      hrooms _ (getD_mem _ _ _ (gen_range_bounds 0 m.rooms.length s hlen).2)
    have hdp := find_valid_position_interior _ (gen_range 0 m.rooms.length s).2 hdr
    have ht : borderWall (setTile (clearStairs m.tiles)
        (find_valid_position_in_room
          (m.rooms.getD (gen_range 0 m.rooms.length s).1 defaultRoom)
          (gen_range 0 m.rooms.length s).2).1.2
        (find_valid_position_in_room
          (m.rooms.getD (gen_range 0 m.rooms.length s).1 defaultRoom)
          (gen_range 0 m.rooms.length s).2).1.1
        TileType.StairsDown) :=
      borderWall_setTile_interior _ _ hdp.1 hdp.2.1 hdp.2.2.1 hdp.2.2.2
        (clearStairs_border _ hb)
    split at h
    · split at h
      · exact absurd h (by simp)
      · rename_i up_idx s2 hpick
        have hup : up_idx < m.rooms.length := by
          split at hpick
          · exact drawDifferent_lt _ _ hlen _ _ _ hpick
          · cases hpick
            omega
        have hur : roomOK (m.rooms.getD up_idx defaultRoom) :=
          hrooms _ (getD_mem _ _ _ hup)
        have hupv := find_valid_position_interior (m.rooms.getD up_idx defaultRoom)
          s2 hur
        split at h
        · split at h
          · rename_i p hprobe
            cases h
            have hpi := probeOffsets_interior _ _ _ _ hprobe
            exact borderWall_setTile_interior _ _ hpi.1 hpi.2.1 hpi.2.2.1 hpi.2.2.2 ht
          · cases h
            exact borderWall_setTile_interior _ _ hupv.1 hupv.2.1 hupv.2.2.1
              hupv.2.2.2 ht
        · cases h
          exact borderWall_setTile_interior _ _ hupv.1 hupv.2.1 hupv.2.2.1
            hupv.2.2.2 ht
    · cases h
      exact ht

theorem generate_map_border (s a : Rng)
    (g : Grid × List Room × BGrid × (Nat × Nat) × Rng)
    (h : generate_map s a = some g) :
    borderWall g.1 ∧ (∀ r ∈ g.2.1, roomOK r) := by
  unfold generate_map at h
  dsimp only at h
  split at h
  · exact absurd h (by simp)
  · rename_i cr hcr
    cases h
    refine ⟨?_, generate_rooms_ok s⟩
    refine add_extra_corridors_border _ _ _ (add_secret_rooms_border _ _ _ ?_)
    refine connect_rooms_border _ _ _ _ ?_ hcr
    refine foldl_induction (fun ts : Grid × Rng => borderWall ts.1) _ _ _ ?_ ?_
    · intro y _ x _ _
      rfl
    · intro ts r _ hts
      exact carve_border _ _ _ hts

theorem mkLevel_border (level : Nat) (s a : Rng) (m : TileMapD)
    (h : mkLevel level s a = some m) : borderWall m.tiles := by
  unfold mkLevel at h
  split at h
  · exact absurd h (by simp)
  · rename_i g hg
    have hgb := generate_map_border s a g hg
    exact add_stairs_border _ _ _ hgb.2 hgb.1 h

/-! ## Corridor carving: interior-only writes, passable cells preserved -/

/-- A passable carved cell: Floor or Door. -/
def FD (v : TileType) : Prop := v = TileType.Floor ∨ v = TileType.Door

/-- The grid cell (x, y) lies strictly inside the border ring. -/
def interior (x y : Nat) : Prop :=
  0 < x ∧ x < MAP_WIDTH - 1 ∧ 0 < y ∧ y < MAP_HEIGHT - 1

instance (x y : Nat) : Decidable (interior x y) := by
  unfold interior; infer_instance

/-- t' differs from t only at interior cells. -/
def interiorOnly (t t' : Grid) : Prop :=
  ∀ y x, ¬ interior x y → getTile t' y x = getTile t y x

/-- Every Floor-or-Door cell of t is still Floor-or-Door in t'. -/
def keepsFD (t t' : Grid) : Prop :=
  ∀ y x, FD (getTile t y x) → FD (getTile t' y x)

/-- Both corridor-carving guarantees at once. -/
def corridorOK (t t' : Grid) : Prop := interiorOnly t t' ∧ keepsFD t t'

/-- keepsFD weakened by one possibly-pillared cell c, which is then
    always well inside the grid. -/
def wellInterior (c : Nat × Nat) : Prop :=
  2 ≤ c.1 ∧ c.1 ≤ MAP_WIDTH - 3 ∧ 2 ≤ c.2 ∧ c.2 ≤ MAP_HEIGHT - 3

def keepsFDx (t t' : Grid) (c : Nat × Nat) : Prop :=
  ∀ y x, FD (getTile t y x) → (FD (getTile t' y x) ∨ ((x, y) = c ∧ wellInterior c))

theorem corridorOK_refl (t : Grid) : corridorOK t t :=
  ⟨fun _ _ _ => rfl, fun _ _ h => h⟩

theorem corridorOK_trans {t1 t2 t3 : Grid} (h1 : corridorOK t1 t2)
    (h2 : corridorOK t2 t3) : corridorOK t1 t3 :=
  ⟨fun y x hn => (h2.1 y x hn).trans (h1.1 y x hn),
   fun y x hf => h2.2 y x (h1.2 y x hf)⟩

theorem corridorOK_setTile (t : Grid) {y x : Nat} {v : TileType} (hv : FD v)
    (hi : interior x y) : corridorOK t (setTile t y x v) := by
  constructor
  · intro y' x' hn
    rw [getTile_setTile]
    split
    · rename_i he
      exact absurd (he.1 ▸ he.2 ▸ hi) hn
    · rfl
  · intro y' x' hf
    rw [getTile_setTile]
    split
    · exact hv
    · exact hf

/-- Cell-level description of a horizontal carve: covered interior
    cells become Floor, everything else is untouched. -/
theorem paint_h (y : Nat) :
    ∀ (n a : Nat) (t : Grid) (y' x' : Nat),
      getTile ((List.range' a n).foldl (fun t x =>
        if 0 < x ∧ x < MAP_WIDTH - 1 ∧ 0 < y ∧ y < MAP_HEIGHT - 1 then
          setTile t y x TileType.Floor
        else t) t) y' x' =
      if y' = y ∧ a ≤ x' ∧ x' < a + n ∧ interior x' y then TileType.Floor
      else getTile t y' x' := by
  intro n
  induction n with
  | zero =>
    intro a t y' x'
    simp only [List.range', List.foldl_nil]
    split
    · omega
    · rfl
  | succ n ih =>
    intro a t y' x'
    rw [List.range'_succ, List.foldl_cons, ih]
    by_cases hcover : y' = y ∧ a ≤ x' ∧ x' < a + (n + 1) ∧ interior x' y
    · rw [if_pos hcover]
      by_cases htail : y' = y ∧ a + 1 ≤ x' ∧ x' < a + 1 + n ∧ interior x' y
      · rw [if_pos htail]
      · rw [if_neg htail]
        have hx : x' = a := by
          rcases hcover with ⟨h1, h2, h3, h4⟩
          by_contra hne
          exact htail ⟨h1, by omega, by omega, h4⟩
        subst hx
        have hia : interior x' y := hcover.2.2.2
        rw [if_pos ⟨hia.1, hia.2.1, hia.2.2.1, hia.2.2.2⟩, getTile_setTile,
          if_pos ⟨hcover.1, rfl⟩]
    · rw [if_neg hcover]
      have htail : ¬ (y' = y ∧ a + 1 ≤ x' ∧ x' < a + 1 + n ∧ interior x' y) := by
        intro hc
        exact hcover ⟨hc.1, by omega, by omega, hc.2.2.2⟩
      rw [if_neg htail]
      split
      · rename_i hg
        rw [getTile_setTile]
        split
        · rename_i he
          exact absurd ⟨he.1, by omega, by omega, he.2 ▸ hg⟩ hcover
        · rfl
      · rfl

theorem create_horizontal_corridor_getTile (t : Grid) (x1 x2 y y' x' : Nat) :
    getTile (create_horizontal_corridor t x1 x2 y) y' x' =
      if y' = y ∧ min x1 x2 ≤ x' ∧ x' < min x1 x2 + (max x1 x2 + 1 - min x1 x2) ∧
          interior x' y then
        TileType.Floor
      else getTile t y' x' := by
  unfold create_horizontal_corridor forRange
  exact paint_h y _ _ t y' x'

theorem paint_v (x : Nat) :
    ∀ (n a : Nat) (t : Grid) (y' x' : Nat),
      getTile ((List.range' a n).foldl (fun t y =>
        if 0 < x ∧ x < MAP_WIDTH - 1 ∧ 0 < y ∧ y < MAP_HEIGHT - 1 then
          setTile t y x TileType.Floor
        else t) t) y' x' =
      if x' = x ∧ a ≤ y' ∧ y' < a + n ∧ interior x y' then TileType.Floor
      else getTile t y' x' := by
  intro n
  induction n with
  | zero =>
    intro a t y' x'
    simp only [List.range', List.foldl_nil]
    split
    · omega
    · rfl
  | succ n ih =>
    intro a t y' x'
    rw [List.range'_succ, List.foldl_cons, ih]
    by_cases hcover : x' = x ∧ a ≤ y' ∧ y' < a + (n + 1) ∧ interior x y'
    · rw [if_pos hcover]
      by_cases htail : x' = x ∧ a + 1 ≤ y' ∧ y' < a + 1 + n ∧ interior x y'
      · rw [if_pos htail]
      · rw [if_neg htail]
        have hy : y' = a := by
          rcases hcover with ⟨h1, h2, h3, h4⟩
          by_contra hne
          exact htail ⟨h1, by omega, by omega, h4⟩
        subst hy
        have hia : interior x y' := hcover.2.2.2
        rw [if_pos ⟨hia.1, hia.2.1, hia.2.2.1, hia.2.2.2⟩, getTile_setTile,
          if_pos ⟨rfl, hcover.1⟩]
    · rw [if_neg hcover]
      have htail : ¬ (x' = x ∧ a + 1 ≤ y' ∧ y' < a + 1 + n ∧ interior x y') := by
        intro hc
        exact hcover ⟨hc.1, by omega, by omega, hc.2.2.2⟩
      rw [if_neg htail]
      split
      · rename_i hg
        rw [getTile_setTile]
        split
        · rename_i he
          exact absurd ⟨he.2, by omega, by omega, he.1 ▸ hg⟩ hcover
        · rfl
      · rfl

theorem create_vertical_corridor_getTile (t : Grid) (y1 y2 x y' x' : Nat) :
    getTile (create_vertical_corridor t y1 y2 x) y' x' =
      if x' = x ∧ min y1 y2 ≤ y' ∧ y' < min y1 y2 + (max y1 y2 + 1 - min y1 y2) ∧
          interior x y' then
        TileType.Floor
      else getTile t y' x' := by
  unfold create_vertical_corridor forRange
  exact paint_v x _ _ t y' x'

theorem create_horizontal_corridor_ok (t : Grid) (x1 x2 y : Nat) :
    corridorOK t (create_horizontal_corridor t x1 x2 y) := by
  constructor
  · intro y' x' hn
    rw [create_horizontal_corridor_getTile]
    split
    · rename_i hc
      exact absurd (hc.1 ▸ hc.2.2.2) hn
    · rfl
  · intro y' x' hf
    rw [create_horizontal_corridor_getTile]
    split
    · exact Or.inl rfl
    · exact hf

theorem create_vertical_corridor_ok (t : Grid) (y1 y2 x : Nat) :
    corridorOK t (create_vertical_corridor t y1 y2 x) := by
  constructor
  · intro y' x' hn
    rw [create_vertical_corridor_getTile]
    split
    · rename_i hc
      exact absurd (hc.1 ▸ hc.2.2.2) hn
    · rfl
  · intro y' x' hf
    rw [create_vertical_corridor_getTile]
    split
    · exact Or.inl rfl
    · exact hf

/-- A horizontal carve starting at an interior cell turns that cell
    into Floor (used to show segment carving erases the pillar left at
    the previous loop point). -/
theorem create_horizontal_corridor_covers (t : Grid) (x1 x2 y : Nat)
    (hi : interior x1 y) :
    getTile (create_horizontal_corridor t x1 x2 y) y x1 = TileType.Floor := by
  rw [create_horizontal_corridor_getTile]
  rw [if_pos ⟨rfl, by omega, by omega, hi⟩]

theorem create_vertical_corridor_covers (t : Grid) (y1 y2 x : Nat)
    (hi : interior x y1) :
    getTile (create_vertical_corridor t y1 y2 x) y1 x = TileType.Floor := by
  rw [create_vertical_corridor_getTile]
  rw [if_pos ⟨rfl, by omega, by omega, hi⟩]


theorem keepsFD_keepsFDx {t t' : Grid} (c : Nat × Nat) (h : keepsFD t t') :
    keepsFDx t t' c :=
  fun y x hf => Or.inl (h y x hf)

/-- A border-guarded Floor write preserves both corridor guarantees. -/
theorem corridorOK_guardWrite (t : Grid) (xi yi : Int) :
    corridorOK t
      (if xi ≤ 0 ∨ (MAP_WIDTH : Int) - 1 ≤ xi ∨ yi ≤ 0 ∨ (MAP_HEIGHT : Int) - 1 ≤ yi then t
       else setTile t yi.toNat xi.toNat TileType.Floor) := by
  split
  · exact corridorOK_refl t
  · rename_i hg
    refine corridorOK_setTile t (Or.inl rfl) ?_
    have hW : MAP_WIDTH = 45 := rfl
    have hH : MAP_HEIGHT = 25 := rfl
    unfold interior
    omega

theorem carveWalk_ok (dx dy : Int) :
    ∀ (n : Nat) (t : Grid) (x y : Int), corridorOK t (carveWalk dx dy t x y n) := by
  intro n
  induction n with
  | zero => intro t x y; exact corridorOK_refl t
  | succ n ih =>
    intro t x y
    rw [carveWalk]
    split
    · exact corridorOK_refl t
    · rename_i hg
      refine corridorOK_trans (corridorOK_setTile t (Or.inl rfl) ?_) (ih _ _ _)
      have hW : MAP_WIDTH = 45 := rfl
      have hH : MAP_HEIGHT = 25 := rfl
      unfold interior
      omega

theorem alcoveGo_ok (dir : Int × Int) (x y : Nat) :
    ∀ (fuel i : Nat) (t : Grid), corridorOK t (alcoveGo dir x y t i fuel) := by
  intro fuel
  induction fuel with
  | zero => intro i t; exact corridorOK_refl t
  | succ fuel ih =>
    intro i t
    rw [alcoveGo]
    split
    · exact corridorOK_refl t
    · rename_i hg
      have hmain : corridorOK t (setTile t
          ((y : Int) + dir.2 * (i : Int)).toNat ((x : Int) + dir.1 * (i : Int)).toNat
          TileType.Floor) := by
        refine corridorOK_setTile t (Or.inl rfl) ?_
        have hW : MAP_WIDTH = 45 := rfl
        have hH : MAP_HEIGHT = 25 := rfl
        unfold interior
        omega
      refine corridorOK_trans ?_ (ih _ _)
      split
      · refine foldl_induction (corridorOK t) _ _ _ hmain ?_
        intro t2 j _ h2
        dsimp only
        split
        · exact h2
        · rename_i hg2
          refine corridorOK_trans h2 (corridorOK_setTile t2 (Or.inl rfl) ?_)
          have hW : MAP_WIDTH = 45 := rfl
          have hH : MAP_HEIGHT = 25 := rfl
          unfold interior
          omega
      · exact hmain

theorem add_corridor_alcove_ok (t : Grid) (x y : Nat) (s : Rng) :
    corridorOK t (add_corridor_alcove t x y s).1 := by
  unfold add_corridor_alcove
  exact alcoveGo_ok _ x y _ 1 t

theorem add_corridor_widening_ok (t : Grid) (x y : Nat) (s : Rng) :
    corridorOK t (add_corridor_widening t x y s).1 := by
  unfold add_corridor_widening
  refine foldl_induction (fun ts : Grid × Rng => corridorOK t ts.1) _ _ _
    (corridorOK_refl t) ?_
  intro ts dy _ hts
  refine foldl_induction (fun ts : Grid × Rng => corridorOK t ts.1) _ _ _ hts ?_
  intro ts2 dx _ hts2
  dsimp only
  split
  · exact hts2
  · split
    · exact hts2
    · rename_i hg2
      split
      · refine corridorOK_trans hts2 (corridorOK_setTile ts2.1 (Or.inl rfl) ?_)
        have hW : MAP_WIDTH = 45 := rfl
        have hH : MAP_HEIGHT = 25 := rfl
        unfold interior
        omega
      · exact hts2

/-- The pillar feature only ever writes one Wall tile, at its own
    well-interior anchor point. -/
theorem add_corridor_pillar_spec (t : Grid) (x y : Nat) :
    interiorOnly t (add_corridor_pillar t x y) ∧
      keepsFDx t (add_corridor_pillar t x y) (x, y) := by
  unfold add_corridor_pillar
  split
  · exact ⟨fun _ _ _ => rfl, keepsFD_keepsFDx _ (fun _ _ h => h)⟩
  · rename_i hg
    have hW : MAP_WIDTH = 45 := rfl
    have hH : MAP_HEIGHT = 25 := rfl
    split
    · constructor
      · intro y' x' hn
        rw [getTile_setTile]
        split
        · rename_i he
          refine absurd ?_ hn
          unfold interior
          omega
        · rfl
      · intro y' x' hf
        rw [getTile_setTile]
        split
        · rename_i he
          refine Or.inr ⟨by rw [he.1, he.2], ?_⟩
          unfold wellInterior
          omega
        · exact Or.inl hf
    · exact ⟨fun _ _ _ => rfl, keepsFD_keepsFDx _ (fun _ _ h => h)⟩

theorem add_corridor_feature_spec (t : Grid) (x y : Nat) (s : Rng) :
    interiorOnly t (add_corridor_feature t x y s).1 ∧
      keepsFDx t (add_corridor_feature t x y s).1 (x, y) := by
  unfold add_corridor_feature
  dsimp only
  split
  · have h := add_corridor_alcove_ok t x y (gen_range 0 3 s).2
    exact ⟨h.1, keepsFD_keepsFDx _ h.2⟩
  · split
    · exact add_corridor_pillar_spec t x y
    · have h := add_corridor_widening_ok t x y (gen_range 0 3 s).2
      exact ⟨h.1, keepsFD_keepsFDx _ h.2⟩

theorem segStep_ok (end_x end_y jit : Nat) (c : Nat × Nat) (t : Grid) (s : Rng) :
    corridorOK t (segStep end_x end_y jit c t s).2.1 := by
  unfold segStep
  dsimp only
  split
  · exact create_horizontal_corridor_ok t _ _ _
  · exact create_vertical_corridor_ok t _ _ _

/-- A segment carve starting at the current point always re-floors
    that point when it is well inside the grid. -/
theorem segStep_covers (end_x end_y jit : Nat) (c : Nat × Nat) (t : Grid) (s : Rng)
    (hc : wellInterior c) :
    getTile (segStep end_x end_y jit c t s).2.1 c.2 c.1 = TileType.Floor := by
  have hW : MAP_WIDTH = 45 := rfl
  have hH : MAP_HEIGHT = 25 := rfl
  unfold wellInterior at hc
  unfold segStep
  dsimp only
  split
  · refine create_horizontal_corridor_covers t _ _ _ ?_
    unfold interior
    omega
  · refine create_vertical_corridor_covers t _ _ _ ?_
    unfold interior
    omega

/-- Through a segment carve, a pending pillar exception is erased:
    the combined map keeps every originally passable cell passable. -/
theorem segStep_keepsFD {t0 t : Grid} {c : Nat × Nat}
    (h : keepsFDx t0 t c) (end_x end_y jit : Nat) (s : Rng) :
    keepsFD t0 (segStep end_x end_y jit c t s).2.1 := by
  intro y x hf
  rcases h y x hf with h1 | ⟨he, hwi⟩
  · exact (segStep_ok end_x end_y jit c t s).2 y x h1
  · have hx : x = c.1 := congrArg Prod.fst he
    have hy : y = c.2 := congrArg Prod.snd he
    rw [hx, hy, segStep_covers end_x end_y jit c t s hwi]
    exact Or.inl rfl

/-- Invariant carried around the branching-corridor main loop: the grid
    so far differs from the original only at interior cells, and every
    originally passable cell is still passable except possibly the
    current point (a just-placed pillar), which is then well interior
    and will be re-carved by the next segment. -/
def branchInv (t0 : Grid) (st : (Nat × Nat) × List (Nat × Nat) × Grid × Rng) : Prop :=
  interiorOnly t0 st.2.2.1 ∧ keepsFDx t0 st.2.2.1 st.1

theorem branchSegStep_inv (end_x end_y : Nat) {t0 : Grid}
    {st : (Nat × Nat) × List (Nat × Nat) × Grid × Rng} (h : branchInv t0 st) (i : Nat) :
    branchInv t0 (branchSegStep end_x end_y st i) := by
  unfold branchSegStep
  have hseg : interiorOnly t0 (segStep end_x end_y 3 st.1 st.2.2.1 st.2.2.2).2.1 ∧
      keepsFD t0 (segStep end_x end_y 3 st.1 st.2.2.1 st.2.2.2).2.1 := by
    constructor
    · intro y x hn
      rw [(segStep_ok end_x end_y 3 st.1 st.2.2.1 st.2.2.2).1 y x hn]
      exact h.1 y x hn
    · exact segStep_keepsFD h.2 end_x end_y 3 st.2.2.2
  dsimp only
  split
  · have hft := add_corridor_feature_spec
      (segStep end_x end_y 3 st.1 st.2.2.1 st.2.2.2).2.1
      (segStep end_x end_y 3 st.1 st.2.2.1 st.2.2.2).1.1
      (segStep end_x end_y 3 st.1 st.2.2.1 st.2.2.2).1.2
      (gen_bool 1 5 (segStep end_x end_y 3 st.1 st.2.2.1 st.2.2.2).2.2).2
    constructor
    · intro y x hn
      rw [hft.1 y x hn]
      exact hseg.1 y x hn
    · intro y x hf
      rcases hft.2 y x (hseg.2 y x hf) with h1 | ⟨he, hwi⟩
      · exact Or.inl h1
      · exact Or.inr ⟨he, hwi⟩
  · exact ⟨hseg.1, keepsFD_keepsFDx _ hseg.2⟩

theorem branchCarveStep_ok {t0 : Grid} (pts : List (Nat × Nat)) {ts : Grid × Rng}
    (h : corridorOK t0 ts.1) (i : Nat) :
    corridorOK t0 (branchCarveStep pts ts i).1 := by
  unfold branchCarveStep
  exact corridorOK_trans h (carveWalk_ok _ _ _ _ _ _)

theorem create_branching_corridor_ok (t : Grid) (sx sy ex ey : Nat) (s : Rng) :
    corridorOK t (create_branching_corridor t sx sy ex ey s).1 := by
  unfold create_branching_corridor
  dsimp only
  have hloop : branchInv t (forRange 0 (min (max ((((sx : Int) - ex).natAbs +
      ((sy : Int) - ey).natAbs) / 4) 3) 6) (branchSegStep ex ey)
      (((sx, sy) : Nat × Nat), ([((sx, sy) : Nat × Nat)]), t, s)) := by
    refine forRange_induction (branchInv t) _ _ _ _ ?_ ?_
    · exact ⟨fun _ _ _ => rfl, keepsFD_keepsFDx _ (fun _ _ h => h)⟩
    · intro st i _ _ hst
      exact branchSegStep_inv ex ey hst i
  set st := forRange 0 (min (max ((((sx : Int) - ex).natAbs +
      ((sy : Int) - ey).natAbs) / 4) 3) 6) (branchSegStep ex ey)
      (((sx, sy) : Nat × Nat), ([((sx, sy) : Nat × Nat)]), t, s) with hst
  have hchc : corridorOK t (create_horizontal_corridor st.2.2.1 st.1.1 ex st.1.2) := by
    constructor
    · intro y x hn
      rw [(create_horizontal_corridor_ok st.2.2.1 st.1.1 ex st.1.2).1 y x hn]
      exact hloop.1 y x hn
    · intro y x hf
      rcases hloop.2 y x hf with h1 | ⟨he, hwi⟩
      · exact (create_horizontal_corridor_ok st.2.2.1 st.1.1 ex st.1.2).2 y x h1
      · have hx : x = st.1.1 := congrArg Prod.fst he
        have hy : y = st.1.2 := congrArg Prod.snd he
        have hW : MAP_WIDTH = 45 := rfl
        have hH : MAP_HEIGHT = 25 := rfl
        unfold wellInterior at hwi
        rw [hx, hy, create_horizontal_corridor_covers st.2.2.1 st.1.1 ex st.1.2
          (by unfold interior; omega)]
        exact Or.inl rfl
  have ht2 : corridorOK t (create_vertical_corridor
      (create_horizontal_corridor st.2.2.1 st.1.1 ex st.1.2) st.1.2 ey ex) :=
    corridorOK_trans hchc (create_vertical_corridor_ok _ _ _ _)
  split
  · exact ht2
  · refine forRange_induction (fun ts : Grid × Rng => corridorOK t ts.1)
      _ _ _ _ ht2 ?_
    intro ts i _ _ hts
    exact branchCarveStep_ok st.2.1 hts i

theorem create_corridor_ok (t : Grid) (sx sy ex ey : Nat) :
    corridorOK t (create_corridor t sx sy ex ey) := by
  unfold create_corridor
  exact corridorOK_trans (create_horizontal_corridor_ok t sx ex sy)
    (create_vertical_corridor_ok _ sy ey ex)

theorem create_z_corridor_ok (t : Grid) (sx sy ex ey : Nat) (s : Rng) :
    corridorOK t (create_z_corridor t sx sy ex ey s).1 := by
  unfold create_z_corridor
  exact corridorOK_trans (create_horizontal_corridor_ok t _ _ _)
    (corridorOK_trans (create_vertical_corridor_ok _ _ _ _)
      (create_horizontal_corridor_ok _ _ _ _))

theorem create_winding_corridor_ok (t : Grid) (sx sy ex ey : Nat) (s : Rng) :
    corridorOK t (create_winding_corridor t sx sy ex ey s).1 := by
  unfold create_winding_corridor
  dsimp only
  have hloop : corridorOK t (forRange 0 (min (max ((((sx : Int) - ex).natAbs +
      ((sy : Int) - ey).natAbs) / 5) 2) 5)
      (fun st _ => segStep ex ey 2 st.1 st.2.1 st.2.2)
      (((sx, sy) : Nat × Nat), t, s)).2.1 := by
    refine forRange_induction
      (fun st : (Nat × Nat) × Grid × Rng => corridorOK t st.2.1) _ _ _ _
      (corridorOK_refl t) ?_
    intro st i _ _ hst
    exact corridorOK_trans hst (segStep_ok ex ey 2 st.1 st.2.1 st.2.2)
  exact corridorOK_trans hloop (corridorOK_trans
    (create_horizontal_corridor_ok _ _ _ _) (create_vertical_corridor_ok _ _ _ _))

/-! ## The stair-clearing loop agrees with its pointwise form -/

/-- One row of the source's stair-clearing double loop: a cell of the
    processed stretch whose original value was a stair tile ends Floor,
    every other cell is untouched.  The loop reads the grid it is
    mutating, but each cell is examined before it can be written, so the
    condition always sees the original value. -/
theorem rowPass (y : Nat) :
    ∀ (n a : Nat) (u : Grid) (y' x' : Nat),
      getTile ((List.range' a n).foldl (fun t x =>
        if getTile t y x = TileType.StairsDown ∨ getTile t y x = TileType.StairsUp then
          setTile t y x TileType.Floor
        else t) u) y' x' =
      if y' = y ∧ a ≤ x' ∧ x' < a + n ∧
          (getTile u y x' = TileType.StairsDown ∨ getTile u y x' = TileType.StairsUp) then
        TileType.Floor
      else getTile u y' x' := by
  intro n
  induction n with
  | zero =>
    intro a u y' x'
    simp only [List.range', List.foldl_nil]
    split
    · rename_i h
      rcases h with ⟨h1, h2, h3, h4⟩
      omega
    · rfl
  | succ n ih =>
    intro a u y' x'
    rw [List.range'_succ, List.foldl_cons, ih]
    have hstep : ∀ yy xx, getTile
        (if getTile u y a = TileType.StairsDown ∨ getTile u y a = TileType.StairsUp then
          setTile u y a TileType.Floor
        else u) yy xx =
        if yy = y ∧ xx = a ∧
            (getTile u y a = TileType.StairsDown ∨ getTile u y a = TileType.StairsUp) then
          TileType.Floor
        else getTile u yy xx := by
      intro yy xx
      split
      · rename_i hc
        rw [getTile_setTile]
        split
        · rename_i he
          rw [if_pos ⟨he.1, he.2, hc⟩]
        · rename_i he
          rw [if_neg (fun hcon => he ⟨hcon.1, hcon.2.1⟩)]
      · rename_i hc
        rw [if_neg (fun hcon => hc hcon.2.2)]
    by_cases hxa : x' = a
    · subst hxa
      rw [if_neg (fun h => absurd h.2.1 (by omega))]
      rw [hstep]
      by_cases hc2 : y' = y ∧
          (getTile u y x' = TileType.StairsDown ∨ getTile u y x' = TileType.StairsUp)
      · rw [if_pos ⟨hc2.1, rfl, hc2.2⟩, if_pos ⟨hc2.1, le_refl x', by omega, hc2.2⟩]
      · rw [if_neg (fun h => hc2 ⟨h.1, h.2.2⟩), if_neg (fun h => hc2 ⟨h.1, h.2.2.2⟩)]
    · have hic : ∀ yy, getTile
          (if getTile u y a = TileType.StairsDown ∨ getTile u y a = TileType.StairsUp then
            setTile u y a TileType.Floor
          else u) yy x' = getTile u yy x' := by
        intro yy
        rw [hstep]
        exact if_neg (fun h => hxa h.2.1)
      rw [hic, hic]
      by_cases hfull : y' = y ∧ a ≤ x' ∧ x' < a + (n + 1) ∧
          (getTile u y x' = TileType.StairsDown ∨ getTile u y x' = TileType.StairsUp)
      · rw [if_pos ⟨hfull.1, by omega, by omega, hfull.2.2.2⟩, if_pos hfull]
      · rw [if_neg (fun h => hfull ⟨h.1, by omega, by omega, h.2.2.2⟩), if_neg hfull]

/-- The full double loop, over the rows of a row stretch. -/
theorem colPass :
    ∀ (n a : Nat) (u : Grid) (y' x' : Nat),
      getTile ((List.range' a n).foldl (fun t y =>
        (List.range' 0 (MAP_WIDTH - 0)).foldl (fun t x =>
          if getTile t y x = TileType.StairsDown ∨ getTile t y x = TileType.StairsUp then
            setTile t y x TileType.Floor
          else t) t) u) y' x' =
      if a ≤ y' ∧ y' < a + n ∧ x' < MAP_WIDTH ∧
          (getTile u y' x' = TileType.StairsDown ∨ getTile u y' x' = TileType.StairsUp) then
        TileType.Floor
      else getTile u y' x' := by
  intro n
  induction n with
  | zero =>
    intro a u y' x'
    simp only [List.range', List.foldl_nil]
    split
    · rename_i h
      rcases h with ⟨h1, h2, h3, h4⟩
      omega
    · rfl
  | succ n ih =>
    intro a u y' x'
    rw [List.range'_succ, List.foldl_cons, ih]
    have hrow : ∀ yy xx, getTile ((List.range' 0 (MAP_WIDTH - 0)).foldl (fun t x =>
        if getTile t a x = TileType.StairsDown ∨ getTile t a x = TileType.StairsUp then
          setTile t a x TileType.Floor
        else t) u) yy xx =
        if yy = a ∧ xx < MAP_WIDTH ∧
            (getTile u a xx = TileType.StairsDown ∨ getTile u a xx = TileType.StairsUp) then
          TileType.Floor
        else getTile u yy xx := by
      intro yy xx
      rw [rowPass]
      by_cases hc : yy = a ∧ xx < MAP_WIDTH ∧
          (getTile u a xx = TileType.StairsDown ∨ getTile u a xx = TileType.StairsUp)
      · rw [if_pos ⟨hc.1, by omega, by omega, hc.2.2⟩, if_pos hc]
      · rw [if_neg (fun h => hc ⟨h.1, by omega, h.2.2.2⟩), if_neg hc]
    by_cases hya : y' = a
    · subst hya
      rw [if_neg (fun h => absurd h.1 (by omega))]
      rw [hrow]
      by_cases hc2 : x' < MAP_WIDTH ∧
          (getTile u y' x' = TileType.StairsDown ∨ getTile u y' x' = TileType.StairsUp)
      · rw [if_pos ⟨rfl, hc2.1, hc2.2⟩, if_pos ⟨le_refl y', by omega, hc2.1, hc2.2⟩]
      · rw [if_neg (fun h => hc2 ⟨h.2.1, h.2.2⟩), if_neg (fun h => hc2 ⟨h.2.2.1, h.2.2.2⟩)]
    · have hir : ∀ xx, getTile ((List.range' 0 (MAP_WIDTH - 0)).foldl (fun t x =>
          if getTile t a x = TileType.StairsDown ∨ getTile t a x = TileType.StairsUp then
            setTile t a x TileType.Floor
          else t) u) y' xx = getTile u y' xx := by
        intro xx
        rw [hrow]
        exact if_neg (fun h => hya h.1)
      rw [hir]
      by_cases hfull : a ≤ y' ∧ y' < a + (n + 1) ∧ x' < MAP_WIDTH ∧
          (getTile u y' x' = TileType.StairsDown ∨ getTile u y' x' = TileType.StairsUp)
      · rw [if_pos ⟨by omega, by omega, hfull.2.2.1, hfull.2.2.2⟩, if_pos hfull]
      · rw [if_neg (fun h => hfull ⟨by omega, by omega, h.2.2.1, h.2.2.2⟩), if_neg hfull]

/-- The pointwise clearStairs used by add_stairs computes, cell for
    cell, exactly what the source's stair-clearing double loop
    (clearStairsLoop) computes. -/
theorem clearStairs_eq_loop (t : Grid) (y x : Nat) :
    getTile (clearStairsLoop t) y x = getTile (clearStairs t) y x := by
  show getTile ((List.range' 0 (MAP_HEIGHT - 0)).foldl (fun t y =>
    (List.range' 0 (MAP_WIDTH - 0)).foldl (fun t x =>
      if getTile t y x = TileType.StairsDown ∨ getTile t y x = TileType.StairsUp then
        setTile t y x TileType.Floor
      else t) t) t) y x = getTile (clearStairs t) y x
  rw [colPass]
  dsimp only [clearStairs, getTile]
  split
  · rename_i h
    rw [if_pos ⟨by omega, h.2.2.1, h.2.2.2⟩]
  · rename_i h
    rw [if_neg (fun hc => h ⟨Nat.zero_le y, by omega, hc.2.1, hc.2.2⟩)]

/-! ## Decomposing a full generation run -/

/-- The non-tile components of a successful generate_map run: the rooms
    are exactly what generate_rooms drew, and the spawn is the spawn
    scan over the final tiles with the ambient stream. -/
theorem generate_map_fields (s a : Rng)
    (g : Grid × List Room × BGrid × (Nat × Nat) × Rng)
    (h : generate_map s a = some g) :
    g.2.1 = (generate_rooms s).1 ∧ g.2.2.2.1 = find_spawn_position g.1 a := by
  unfold generate_map at h
  dsimp only at h
  split at h
  · exact absurd h (by simp)
  · cases h
    exact ⟨rfl, rfl⟩

theorem mkLevel_elim (level : Nat) (s a : Rng) (m : TileMapD)
    (h : mkLevel level s a = some m) :
    ∃ g, generate_map s a = some g ∧
      add_stairs ⟨g.1, g.2.1, g.2.2.1, g.2.2.2.1, none, none, level⟩ g.2.2.2.2 = some m := by
  unfold mkLevel at h
  split at h
  · exact absurd h (by simp)
  · rename_i g hg
    exact ⟨g, hg, h⟩

/-! ## Concrete generation runs

A random stream crafted so that room generation accepts exactly one
room, an L-shaped 6 by 6 room at (1, 1): every placement attempt draws
the same geometry, so after the first acceptance all later candidates
overlap it and are refused.  With a single room the corridor, secret
room and extra-corridor passes are no-ops, which makes the runs small
enough to evaluate inside proofs. -/
def sCommon : Rng :=
  [0] ++ (List.replicate 100 [30, 0, 0, 0, 0, 60]).flatten ++ [0] ++
    List.replicate 100 0 ++ [0, 0, 0, 3, 0, 0, 3] ++ [0]

/-- Stair draws landing the up stair on the down stair cell (5, 5). -/
def sC24 : Rng := sCommon ++ [0, 3, 3, 3, 3]

/-- Stair draws landing the down stair on the spawn cell (2, 2). -/
def sC1 : Rng := sCommon ++ [0, 0, 0]

def emptyTM : TileMapD :=
  ⟨⟨fun _ _ => TileType.Wall⟩, [], ⟨fun _ _ => BiomeType.Caves⟩, (0, 0), none, none, 0⟩

def defaultGen : Grid × List Room × BGrid × (Nat × Nat) × Rng :=
  (⟨fun _ _ => TileType.Wall⟩, [], ⟨fun _ _ => BiomeType.Caves⟩, (0, 0), [])

/-- Level 0 on sC1, ambient stream [7]. -/
def mRunA : TileMapD := (mkLevel 0 sC1 [7]).getD emptyTM

/-- Level 0 on sC1, ambient stream [8]. -/
def mRunB : TileMapD := (mkLevel 0 sC1 [8]).getD emptyTM

/-- Level 1 on sC24, ambient stream [0]. -/
def mRunC : TileMapD := (mkLevel 1 sC24 [0]).getD emptyTM

/-- The generate_map stage of the mRunA run. -/
def gRunA : Grid × List Room × BGrid × (Nat × Nat) × Rng :=
  (generate_map sC1 [7]).getD defaultGen

set_option maxRecDepth 100000 in
theorem hRunA : mkLevel 0 sC1 [7] = some mRunA := rfl

set_option maxRecDepth 100000 in
theorem hRunB : mkLevel 0 sC1 [8] = some mRunB := rfl

set_option maxRecDepth 100000 in
theorem hgRunA : generate_map sC1 [7] = some gRunA := rfl

/-! ## The claims -/

set_option maxRecDepth 100000 in
/-- C1, as stated: in every generated map with at least one Floor tile,
    the recorded spawn position addresses a Floor tile of the final
    grid.  Refuted: the spawn is chosen before add_stairs runs, and the
    stair pass may stamp StairsDown onto the spawn cell.  On level 0 of
    stream sC1 with ambient stream [7] the final grid has Floor tiles,
    yet the spawn cell holds StairsDown. -/
theorem C1_spawn_counterexample :
    (mkLevel 0 sC1 [7]).isSome = true ∧
      (floorTilesAll mRunA.tiles).length ≠ 0 ∧
      getTile mRunA.tiles mRunA.spawn_position.2 mRunA.spawn_position.1 =
        TileType.StairsDown := by
  decide

/-- C1, amended: when the pre-stairs grid has a Floor tile, the spawn
    cell holds Floor in that pre-stairs grid, and in the final grid it
    holds Floor or one of the two stair tiles. -/
theorem C1_spawn_floor (level : Nat) (s a : Rng)
    (g : Grid × List Room × BGrid × (Nat × Nat) × Rng) (m : TileMapD)
    (hg : generate_map s a = some g) (hm : mkLevel level s a = some m)
    (hf : (floorTilesAll g.1).length ≠ 0) :
    getTile g.1 m.spawn_position.2 m.spawn_position.1 = TileType.Floor ∧
      (getTile m.tiles m.spawn_position.2 m.spawn_position.1 = TileType.Floor ∨
       getTile m.tiles m.spawn_position.2 m.spawn_position.1 = TileType.StairsDown ∨
       getTile m.tiles m.spawn_position.2 m.spawn_position.1 = TileType.StairsUp) := by
  obtain ⟨g', hg', hadd⟩ := mkLevel_elim level s a m hm
  rw [hg] at hg'
  cases Option.some.inj hg'
  have hsp : m.spawn_position = g.2.2.2.1 := (add_stairs_spec _ m _ hadd).2.1
  have hspf : m.spawn_position = find_spawn_position g.1 a :=
    hsp.trans (generate_map_fields s a g hg).2
  have hfloor : getTile g.1 m.spawn_position.2 m.spawn_position.1 = TileType.Floor := by
    rw [hspf]
    exact find_spawn_position_floor g.1 a hf
  refine ⟨hfloor, ?_⟩
  have hw := (add_stairs_spec _ m _ hadd).1 m.spawn_position.2 m.spawn_position.1
  unfold stairWrite at hw
  dsimp only at hw
  rcases hw with h1 | h1 | h1 | h1
  · exact Or.inl (h1.trans hfloor)
  · exact Or.inl h1
  · exact Or.inr (Or.inl h1)
  · exact Or.inr (Or.inr h1)

set_option maxRecDepth 100000 in
theorem C1_spawn_floor_witness :
    getTile gRunA.1 mRunA.spawn_position.2 mRunA.spawn_position.1 = TileType.Floor ∧
      (getTile mRunA.tiles mRunA.spawn_position.2 mRunA.spawn_position.1 =
        TileType.Floor ∨
       getTile mRunA.tiles mRunA.spawn_position.2 mRunA.spawn_position.1 =
        TileType.StairsDown ∨
       getTile mRunA.tiles mRunA.spawn_position.2 mRunA.spawn_position.1 =
        TileType.StairsUp) :=
  C1_spawn_floor 0 sC1 [7] gRunA mRunA hgRunA hRunA (by decide)

set_option maxRecDepth 100000 in
/-- C2: the claim that down_stairs_pos and up_stairs_pos never coincide
    when both are Some is refuted by the code: level 1 of stream sC24
    ends with both stair fields holding the same cell (5, 5). -/
theorem C2_up_equals_down :
    (mkLevel 1 sC24 [0]).isSome = true ∧ mRunC.current_level = 1 ∧
      mRunC.down_stairs_pos = some (5, 5) ∧ mRunC.up_stairs_pos = some (5, 5) := by
  decide

/-- C3: every cell of the outer ring of every generated map holds Wall,
    for every stream, ambient stream and level. -/
theorem C3_border_ring (level : Nat) (s a : Rng) (m : TileMapD)
    (h : mkLevel level s a = some m) : borderWall m.tiles :=
  mkLevel_border level s a m h

set_option maxRecDepth 100000 in
theorem C3_border_ring_witness : borderWall mRunA.tiles :=
  C3_border_ring 0 sC1 [7] mRunA hRunA

set_option maxRecDepth 100000 in
/-- C4: the claim that on an up/down stair collision with no Floor
    neighbour no StairsUp is written and up_stairs_pos stays None is
    refuted: on level 1 of stream sC24 the up draw collides with the
    down cell (5, 5), the neighbour probe finds no Floor (a probe
    success would record a neighbouring cell, not (5, 5) itself), and
    the code falls through to stamping StairsUp over the down stair
    cell and recording it. -/
theorem C4_collision_up_written :
    mRunC.up_stairs_pos = mRunC.down_stairs_pos ∧
      mRunC.up_stairs_pos = some (5, 5) ∧
      getTile mRunC.tiles 5 5 = TileType.StairsUp := by
  decide

set_option maxRecDepth 100000 in
/-- C5, as stated: generation is deterministic in the supplied random
    source alone.  Refuted: find_spawn_position draws from a fresh
    thread_rng (the ambient stream here), so two runs with the same
    threaded stream but different ambient draws disagree on the spawn
    position. -/
theorem C5_ambient_counterexample :
    (mkLevel 0 sC1 [7]).isSome = true ∧ (mkLevel 0 sC1 [8]).isSome = true ∧
      mRunA.spawn_position ≠ mRunB.spawn_position := by
  decide

/-- C5, amended: everything except the spawn position is deterministic
    in the threaded stream: tiles, rooms, biomes, both stair fields and
    the level tag agree across runs that share the threaded stream,
    whatever each run's ambient draws were. -/
theorem C5_deterministic_mod_spawn (level : Nat) (s a a' : Rng) (m m' : TileMapD)
    (h : mkLevel level s a = some m) (h' : mkLevel level s a' = some m') :
    m.tiles = m'.tiles ∧ m.rooms = m'.rooms ∧ m.biomes = m'.biomes ∧
      m.down_stairs_pos = m'.down_stairs_pos ∧ m.up_stairs_pos = m'.up_stairs_pos ∧
      m.current_level = m'.current_level := by
  obtain ⟨g, hg, hadd⟩ := mkLevel_elim level s a m h
  obtain ⟨g', hg', hadd'⟩ := mkLevel_elim level s a' m' h'
  have hcore := generate_map_core_ambient_free s a a'
  rw [hg, hg'] at hcore
  simp only [Option.map_some', Option.some.injEq, Prod.mk.injEq] at hcore
  obtain ⟨ht, hr, hb, hs⟩ := hcore
  rw [← ht, ← hr, ← hs] at hadd'
  have hind := add_stairs_indep g.1 g.2.1 g.2.2.1 g'.2.2.1 g.2.2.2.1 g'.2.2.2.1
    level g.2.2.2.2
  rw [hadd, hadd'] at hind
  simp only [Option.map_some', Option.some.injEq, Prod.mk.injEq] at hind
  obtain ⟨e1, e2, e4, e5, e6⟩ := hind
  refine ⟨e1, e2, ?_, e4, e5, e6⟩
  have hmb : m.biomes = g.2.2.1 := (add_stairs_spec _ m _ hadd).2.2.2.1
  have hmb' : m'.biomes = g'.2.2.1 := (add_stairs_spec _ m' _ hadd').2.2.2.1
  rw [hmb, hmb', hb]

set_option maxRecDepth 100000 in
theorem C5_deterministic_mod_spawn_witness :
    mRunA.tiles = mRunB.tiles ∧ mRunA.rooms = mRunB.rooms ∧
      mRunA.biomes = mRunB.biomes ∧
      mRunA.down_stairs_pos = mRunB.down_stairs_pos ∧
      mRunA.up_stairs_pos = mRunB.up_stairs_pos ∧
      mRunA.current_level = mRunB.current_level :=
  C5_deterministic_mod_spawn 0 sC1 [7] [8] mRunA mRunB hRunA hRunB

/-- C6: the rooms of every generated map pairwise pass the source's
    1-tile-buffered overlap test, and equivalently their bounding boxes
    inflated by one tile on every side share no point. -/
theorem C6_rooms_disjoint (level : Nat) (s a : Rng) (m : TileMapD)
    (h : mkLevel level s a = some m) :
    List.Pairwise (fun r1 r2 => ¬ Room.overlaps r1 r2 ∧ inflatedDisjoint r1 r2)
      m.rooms := by
  obtain ⟨g, hg, hadd⟩ := mkLevel_elim level s a m h
  have hrooms : m.rooms = g.2.1 := (add_stairs_spec _ m _ hadd).2.2.1
  rw [hrooms, (generate_map_fields s a g hg).1]
  exact (generate_rooms_pairwise s).imp
    (fun h2 => ⟨h2, (not_overlaps_iff_inflatedDisjoint _ _).mp h2⟩)

set_option maxRecDepth 100000 in
theorem C6_rooms_disjoint_witness :
    List.Pairwise (fun r1 r2 => ¬ Room.overlaps r1 r2 ∧ inflatedDisjoint r1 r2)
      mRunA.rooms :=
  C6_rooms_disjoint 0 sC1 [7] mRunA hRunA

/-- C7: every generated map keeps at least one room.  (Not by the
    fallback the spec describes — none exists in the code — but because
    the first placement attempt always runs and is accepted against the
    empty room list, the budget can never be exhausted with zero rooms.) -/
theorem C7_rooms_nonempty (level : Nat) (s a : Rng) (m : TileMapD)
    (h : mkLevel level s a = some m) : 1 ≤ m.rooms.length := by
  obtain ⟨g, hg, hadd⟩ := mkLevel_elim level s a m h
  have hrooms : m.rooms = g.2.1 := (add_stairs_spec _ m _ hadd).2.2.1
  rw [hrooms, (generate_map_fields s a g hg).1]
  exact generate_rooms_nonempty s

set_option maxRecDepth 100000 in
theorem C7_rooms_nonempty_witness : 1 ≤ mRunA.rooms.length :=
  C7_rooms_nonempty 0 sC1 [7] mRunA hRunA

/-- C8: every corridor routing strategy, features included, writes only
    interior cells and leaves every previously passable (Floor or Door)
    cell passable: the one transient exception, the pillar feature's
    Wall, is stamped at the walk's current point well inside the grid
    and is re-floored by the very next segment carve. -/
theorem C8_corridor_carving (t : Grid) (sx sy ex ey : Nat) (s : Rng) :
    corridorOK t (create_corridor t sx sy ex ey) ∧
      corridorOK t (create_z_corridor t sx sy ex ey s).1 ∧
      corridorOK t (create_winding_corridor t sx sy ex ey s).1 ∧
      corridorOK t (create_branching_corridor t sx sy ex ey s).1 :=
  ⟨create_corridor_ok t sx sy ex ey, create_z_corridor_ok t sx sy ex ey s,
   create_winding_corridor_ok t sx sy ex ey s,
   create_branching_corridor_ok t sx sy ex ey s⟩

/-- C9: every room of a generated map lies strictly inside the grid
    with a 1-tile margin on every side. -/
theorem C9_room_margins (level : Nat) (s a : Rng) (m : TileMapD)
    (h : mkLevel level s a = some m) (r : Room) (hr : r ∈ m.rooms) :
    1 ≤ r.x ∧ 1 ≤ r.y ∧ r.x + r.width ≤ MAP_WIDTH - 2 ∧
      r.y + r.height ≤ MAP_HEIGHT - 2 := by
  obtain ⟨g, hg, hadd⟩ := mkLevel_elim level s a m h
  have hrooms : m.rooms = g.2.1 := (add_stairs_spec _ m _ hadd).2.2.1
  rw [hrooms] at hr
  have hro := (generate_map_border s a g hg).2 r hr
  exact ⟨hro.1, hro.2.1, hro.2.2.1, hro.2.2.2.1⟩

set_option maxRecDepth 100000 in
theorem C9_room_margins_witness :
    1 ≤ (⟨1, 1, 6, 6, RoomType.LShaped⟩ : Room).x ∧
      1 ≤ (⟨1, 1, 6, 6, RoomType.LShaped⟩ : Room).y ∧
      (⟨1, 1, 6, 6, RoomType.LShaped⟩ : Room).x +
        (⟨1, 1, 6, 6, RoomType.LShaped⟩ : Room).width ≤ MAP_WIDTH - 2 ∧
      (⟨1, 1, 6, 6, RoomType.LShaped⟩ : Room).y +
        (⟨1, 1, 6, 6, RoomType.LShaped⟩ : Room).height ≤ MAP_HEIGHT - 2 :=
  C9_room_margins 0 sC1 [7] mRunA hRunA ⟨1, 1, 6, 6, RoomType.LShaped⟩ (by decide)

/-- C10: get_spawn_position always returns in-bounds coordinates, the
    no-Floor grid-centre fallback included. -/
theorem C10_spawn_in_bounds (level : Nat) (s a : Rng) (m : TileMapD)
    (h : mkLevel level s a = some m) :
    m.get_spawn_position.1 < MAP_WIDTH ∧ m.get_spawn_position.2 < MAP_HEIGHT := by
  obtain ⟨g, hg, hadd⟩ := mkLevel_elim level s a m h
  have hsp : m.spawn_position = g.2.2.2.1 := (add_stairs_spec _ m _ hadd).2.1
  unfold TileMapD.get_spawn_position
  rw [hsp, (generate_map_fields s a g hg).2]
  exact find_spawn_position_bounds g.1 a

set_option maxRecDepth 100000 in
theorem C10_spawn_in_bounds_witness :
    mRunA.get_spawn_position.1 < MAP_WIDTH ∧ mRunA.get_spawn_position.2 < MAP_HEIGHT :=
  C10_spawn_in_bounds 0 sC1 [7] mRunA hRunA

end Chasm
